import Mathlib

/-!
Verification development for the picpro150 PIC programmer.

The C++ sources (`hexdata.cpp`, `chipinfo.cpp`/`chipinfo.h`, `k150.cpp`,
`main.cpp`) are shallowly embedded below.  Bytes and addresses are modelled
as `Nat` (all values that occur in the program are non-negative and small,
masks such as `&&& 0xff` are written explicitly where the C++ narrows);
the C++ `int` is modelled as `Int` where two's-complement behaviour
matters.  `std::map<int, std::vector<uint8_t>>` is modelled as an
association list sorted by key, with the non-overwriting `insert` of
`std::map`.  The serial transport is modelled as a list of reply bytes
consumed one byte per `readData` call, together with a log of the messages
written; a command that needs more reply bytes than remain behaves like a
transport error (the `catch` path in the C++) and returns `false`.
-/

namespace K150

/-! ## hexdata.cpp : HexData -/

/-- `HexData::hex_to_num` (hexdata.cpp:26): parse hex-ASCII characters,
stopping at the first character that is not a hex digit. -/
def hex_to_num : List Nat → Nat → Nat
  | [], val => val
  | c :: rest, val =>
    if 48 ≤ c ∧ c ≤ 57 then hex_to_num rest ((val <<< 4) + (c - 48))
    else if 65 ≤ c ∧ c ≤ 70 then hex_to_num rest ((val <<< 4) + (c - 65 + 10))
    else if 97 ≤ c ∧ c ≤ 102 then hex_to_num rest ((val <<< 4) + (c - 97 + 10))
    else val

/-- The two-character hex field of `line` starting at index `i`
(`hex[0] = line[i]; hex[1] = line[i+1]; hex_to_num(hex, 2)`). -/
def hex2At (line : List Nat) (i : Nat) : Nat :=
  hex_to_num [line.getD i 0, line.getD (i + 1) 0] 0

/-- The four-character hex field of `line` starting at index `i`. -/
def hex4At (line : List Nat) (i : Nat) : Nat :=
  hex_to_num [line.getD i 0, line.getD (i + 1) 0, line.getD (i + 2) 0,
    line.getD (i + 3) 0] 0

/-- The segment store: `std::map<int, std::vector<uint8_t>>`, an
association list sorted strictly by address key. -/
abbrev Segs := List (Nat × List Nat)

/-- `std::map::insert`: inserts keeping the keys sorted; when the key is
already present the map is unchanged and the returned flag is `false`. -/
def mapInsert (k : Nat) (v : List Nat) : Segs → Segs × Bool
  | [] => ([(k, v)], true)
  | (k', v') :: t =>
    if k < k' then ((k, v) :: (k', v') :: t, true)
    else if k = k' then ((k', v') :: t, false)
    else
      let r := mapInsert k v t
      ((k', v') :: r.1, r.2)

/-- The data loop of a type-00 record (hexdata.cpp:158-171): `n` is the
number of loop iterations (the C++ loop `for (i = 0; i < 2*reclen; i += 4)`
runs `(2*reclen + 3) / 4` times), `i` the current loop index.  Returns the
decoded data bytes and the sum of the decoded bytes. -/
def readWords (line : List Nat) : Nat → Nat → List Nat × Nat
  | 0, _ => ([], 0)
  | n + 1, i =>
    let b1 := hex2At line (i + 9)
    let b2 := hex2At line (i + 11)
    let r := readWords line n (i + 4)
    (b1 :: b2 :: r.1, b1 + b2 + r.2)

/-- The expected checksum byte `(~sum + 1) & 0xff` for a record whose
decoded bytes sum to `sum` (C++ `int` two's complement). -/
def crcOf (sum : Nat) : Nat := (256 - sum % 256) % 256

/-- Record length field `bb` of a line. -/
def recLen (line : List Nat) : Nat := hex2At line 1

/-- Record address field `aaaa` of a line. -/
def recAddr (line : List Nat) : Nat := hex4At line 3

/-- Record type field `tt` of a line. -/
def recType (line : List Nat) : Nat := hex2At line 7

/-- Checksum byte of a line (its last two characters). -/
def recCrc (line : List Nat) : Nat :=
  hex_to_num [line.getD (line.length - 2) 0, line.getD (line.length - 1) 0] 0

/-- Outcome of processing one line of the `loadHEX` loop. -/
inductive RecStep where
  | next (ext_address : Nat) (segments : Segs)
  | eof (segments : Segs)
  | fail (segments : Segs)
deriving Repr, DecidableEq

/-- One iteration of the `loadHEX` loop body (hexdata.cpp:115-221) on a
line that has already been read: validates the `':'` prefix and length,
dispatches on the record type (00 data / 01 EOF / 02 / 04 extended
address), and finally checks the checksum.  Note the type-00 branch
inserts its segment *before* the checksum is verified. -/
def doLine (line : List Nat) (ext_address : Nat) (segments : Segs) : RecStep :=
  if line.length < 3 ∨ line.getD 0 0 ≠ 58 then .fail segments
  else
    let reclen := recLen line
    if line.length ≠ 2 * (reclen + 5) + 1 then .fail segments
    else
      let recaddr := recAddr line
      let sum := reclen + ((recaddr >>> 8) &&& 0xff) + (recaddr &&& 0xff)
      let addr := recaddr ||| ext_address
      let rectype := recType line
      let sum := sum + rectype
      if rectype = 0 then
        let r := readWords line ((2 * reclen + 3) / 4) 0
        let segments' := (mapInsert addr r.1 segments).1
        if recCrc line ≠ crcOf (sum + r.2) then .fail segments'
        else .next ext_address segments'
      else if rectype = 1 then
        if reclen = 0 then .eof segments else .fail segments
      else if rectype = 2 then
        let shift := hex4At line 9
        let sum := sum + ((shift >>> 8) &&& 0xff) + (shift &&& 0xff)
        if recCrc line ≠ crcOf sum then .fail segments
        else .next (shift <<< 4) segments
      else if rectype = 4 then
        let shift := hex4At line 9
        let sum := sum + ((shift >>> 8) &&& 0xff) + (shift &&& 0xff)
        if recCrc line ≠ crcOf sum then .fail segments
        else .next (shift <<< 16) segments
      else .fail segments

/-- The `loadHEX` loop over the lines of the file.  When the lines run out
without an EOF record, the next `readline` yields an empty line, which
fails the format check, so the load fails. -/
def runLines : List (List Nat) → Nat → Segs → Bool × Segs
  | [], _, segments => (false, segments)
  | l :: ls, ext_address, segments =>
    match doLine l ext_address segments with
    | .next ext' segments' => runLines ls ext' segments'
    | .eof segments' => (true, segments')
    | .fail segments' => (false, segments')

/-- `HexData::loadHEX` (hexdata.cpp:103): the store is cleared, then the
lines are processed with `ext_address = 0`.  Returns the success flag and
the resulting segment store. -/
def loadHEX (lines : List (List Nat)) : Bool × Segs :=
  runLines lines 0 []

/-- In-place byte swap of each 2-byte word (hexdata.cpp:339-347). -/
def swapPairs : List Nat → List Nat
  | b1 :: b2 :: rest => b2 :: b1 :: swapPairs rest
  | l => l

/-- `HexData::loadRAW` (hexdata.cpp:328): rejects odd-sized input, then
scans all segments with the overlap test of lines 332-335, inserts, and
swaps bytes pairwise when `swap_bytes`.  Returns the success flag and the
updated store. -/
def loadRAW (segments : Segs) (addr : Nat) (data : List Nat)
    (swap_bytes : Bool) : Bool × Segs :=
  if data.length % 2 ≠ 0 then (false, segments)
  else if segments.any (fun e =>
      (addr ≥ e.1 ∧ addr < e.1 + e.2.length) ∨
      (addr + data.length > e.1 ∧ addr + data.length < e.1 + e.2.length)) then
    (false, segments)
  else
    let s := mapInsert addr data segments
    if !s.2 then (false, segments)
    else if swap_bytes then
      (true, (mapInsert addr (swapPairs data) segments).1)
    else (true, s.1)

/-- `HexData::loadRAW_LE8` (hexdata.cpp:351): each input byte `b` becomes
the word `(b, 0)`; the overlap test uses the doubled size `ws`. -/
def loadRAW_LE8 (segments : Segs) (addr : Nat) (data : List Nat) :
    Bool × Segs :=
  let ws := 2 * data.length
  if segments.any (fun e =>
      (addr ≥ e.1 ∧ addr < e.1 + e.2.length) ∨
      (addr + ws > e.1 ∧ addr + ws < e.1 + e.2.length)) then
    (false, segments)
  else
    let b16 := data.flatMap (fun b => [b, 0])
    let s := mapInsert addr b16 segments
    if !s.2 then (false, segments)
    else (true, s.1)

/-- The blank-fill loop `while (addr < stop) { push bm; push bl; addr += 2 }`
(hexdata.cpp:391-396 and 402-407).  Returns the emitted bytes and the
final `addr`. -/
def fillLoop (bm bl stop : Nat) (addr : Nat) : List Nat × Nat :=
  if addr < stop then
    let r := fillLoop bm bl stop (addr + 2)
    (bm :: bl :: r.1, r.2)
  else ([], addr)
termination_by stop - addr

/-- The shift loop `shift = 0; while (addr - shift > first) shift += 2`
(hexdata.cpp:408-410). -/
def shiftCalc (first addr : Nat) (shift : Nat) : Nat :=
  if addr - shift > first then shiftCalc first addr (shift + 2)
  else shift
termination_by addr - shift

/-- The copy loop `while (shift < size && addr < upper)` (hexdata.cpp:
411-425), applied to the segment bytes from offset `shift` onwards.
Emits the words (swapped when `swap_bytes`) and returns the final `addr`. -/
def rodCopy (swap_bytes : Bool) (upper : Nat) : List Nat → Nat → List Nat × Nat
  | b1 :: b2 :: rest, addr =>
    if addr < upper then
      let r := rodCopy swap_bytes upper rest (addr + 2)
      ((if swap_bytes then [b2, b1] else [b1, b2]) ++ r.1, r.2)
    else ([], addr)
  | _, addr => ([], addr)

/-- The main loop of `rangeOfData` (hexdata.cpp:386-430) over the
iterator positions `its` (the suffix of the segment list the iterator
still has to visit). -/
def rodLoop (bm bl : Nat) (swap_bytes : Bool) (upper : Nat) :
    Segs → Nat → List Nat
  | [], addr => (fillLoop bm bl upper addr).1
  | (first, bytes) :: rest, addr =>
    if first ≥ upper then (fillLoop bm bl upper addr).1
    else
      let step : List Nat × Nat :=
        if first + bytes.length > addr then
          let f := fillLoop bm bl first addr
          let sh := shiftCalc first f.2 0
          let c := rodCopy swap_bytes upper (bytes.drop sh) f.2
          (f.1 ++ c.1, c.2)
        else ([], addr)
      if step.2 = upper then step.1
      else step.1 ++ rodLoop bm bl swap_bytes upper rest step.2

/-- `HexData::rangeOfData` (hexdata.cpp:371): `lower_bound` gives the
first segment whose key is `≥ lower_bound`; when that segment starts
strictly after `lower_bound` and has a predecessor the iteration starts
from the predecessor. -/
def rangeOfData (segments : Segs) (lower_bound word_count blank_word : Nat)
    (swap_bytes : Bool) : List Nat :=
  let upper_bound := lower_bound + 2 * word_count
  let blank_msb := (blank_word >>> 8) &&& 0xff
  let blank_lsb := blank_word &&& 0xff
  let pre := segments.takeWhile (fun e => e.1 < lower_bound)
  let post := segments.dropWhile (fun e => e.1 < lower_bound)
  let its :=
    match post with
    | [] => ([] : Segs)
    | (first, _) :: _ =>
      match pre.getLast? with
      | some p => if first > lower_bound then p :: post else post
      | none => post
  rodLoop blank_msb blank_lsb swap_bytes upper_bound its lower_bound

/-! ## chipinfo.h / chipinfo.cpp : CHIPInfo

Strings are modelled as lists of ASCII codes. -/

/-- ASCII codes of a string literal (for writing readable constants). -/
def ascii (s : String) : List Nat := s.data.map Char.toNat

/-- `CHIPInfo::upperStr` (chipinfo.h:77): ASCII `toupper` of every
character. -/
def upperStr (buf : List Nat) : List Nat :=
  buf.map (fun c => if 97 ≤ c ∧ c ≤ 122 then c - 32 else c)

/-- `CHIPInfo::unwrap` (chipinfo.h:87): `f = find_first_of('"')`; when no
quote occurs the input is returned unchanged; otherwise the result is
`substr(f + 1, l - f)` where `l = find_last_of('"')`. -/
def unwrap (buf : List Nat) : List Nat :=
  match buf.findIdx? (fun c => c = 34) with
  | none => buf
  | some f =>
    let l := buf.length - 1 - ((buf.reverse.findIdx? (fun c => c = 34)).getD 0)
    (buf.drop (f + 1)).take (l - f)

/-- Loop body of `CHIPInfo::tokenize` (chipinfo.h:96): `encaps` is the
in-quotes flag, `token` the accumulator. -/
def tokenizeAux (sep enc : Nat) (trimnull : Bool) :
    List Nat → Bool → List Nat → List (List Nat)
  | [], _, token => if !trimnull || token ≠ [] then [token] else []
  | c :: rest, encaps, token =>
    if ¬encaps ∧ sep ≠ 0 ∧ c = sep then
      (if !trimnull || token ≠ [] then [token] else []) ++
        tokenizeAux sep enc trimnull rest encaps []
    else
      tokenizeAux sep enc trimnull rest
        (if c = enc then !encaps else encaps) (token ++ [c])

/-- `CHIPInfo::tokenize` (chipinfo.h:96). -/
def tokenize (str : List Nat) (sep enc : Nat) (trimnull : Bool) :
    List (List Nat) :=
  if str.length = 0 then [] else tokenizeAux sep enc trimnull str false []

/-- `atoi` on the modelled strings: skip leading spaces, then parse the
longest run of decimal digits (the values in the database are
non-negative). -/
def decDigits : List Nat → Nat → Nat
  | [], val => val
  | c :: rest, val =>
    if 48 ≤ c ∧ c ≤ 57 then decDigits rest (10 * val + (c - 48)) else val

/-- Model of `atoi(s.c_str())` for the database values. -/
def atoiM (s : List Nat) : Nat := decDigits (s.dropWhile (fun c => c = 32)) 0

/-- Model of `(int) std::stod("0x" + s)`: the value of the longest hex
prefix of `s`. -/
def hexStod (s : List Nat) : Nat := hex_to_num s 0

/-- `CHIPInfo::CHIP` (chipinfo.h:45), without the FUSE list blocks. -/
structure CHIP where
  valid : Bool := false
  chip_name : List Nat := []
  chip_id : List Nat := []
  socket_image : List Nat := []
  erase_mode : Nat := 0
  power_sequence : List Nat := []
  program_delay : Nat := 0
  program_tries : Nat := 0
  over_program : Nat := 0
  core_type : List Nat := []
  rom_size : Nat := 0
  eeprom_size : Nat := 0
  fuse_blank : List Nat := []
  include_flag : Bool := false
  flash_chip : Bool := false
  cp_warn : Bool := false
  cal_word : Bool := false
  band_gap : Bool := false
  icsp_only : Bool := false
deriving Repr, DecidableEq

/-- The key/value dispatch of `CHIPInfo::loaddata` (chipinfo.cpp:125-178)
for one line inside a matched chip record (`chipfound == true`):
`var = tokenize(line, '=', '"', false)`, upper-case the key, assign the
field. -/
def loaddataVar (info : CHIP) (line : List Nat) : CHIP :=
  let var := tokenize line 61 34 false
  if var.length > 1 then
    let vn := upperStr (var.getD 0 [])
    let v := var.getD 1 []
    if vn = ascii "CHIPID" then { info with chip_id := unwrap v }
    else if vn = ascii "SOCKETIMAGE" then
      { info with socket_image := upperStr (unwrap v) }
    else if vn = ascii "ERASEMODE" then { info with erase_mode := atoiM (unwrap v) }
    else if vn = ascii "POWERSEQUENCE" then
      { info with power_sequence := upperStr (unwrap v) }
    else if vn = ascii "PROGRAMDELAY" then
      { info with program_delay := atoiM (unwrap v) }
    else if vn = ascii "PROGRAMTRIES" then
      { info with program_tries := atoiM (unwrap v) }
    else if vn = ascii "OVERPROGRAM" then
      { info with over_program := atoiM (unwrap v) }
    else if vn = ascii "CORETYPE" then
      { info with core_type := upperStr (unwrap v) }
    else if vn = ascii "ROMSIZE" then { info with rom_size := hexStod (unwrap v) }
    else if vn = ascii "EEPROMSIZE" then
      { info with eeprom_size := hexStod (unwrap v) }
    else if vn = ascii "FUSEBLANK" then
      { info with fuse_blank := (tokenize (unwrap v) 32 0 true).map hexStod }
    else if vn = ascii "INCLUDE" then
      { info with include_flag := upperStr (unwrap v) = ascii "Y" }
    else if vn = ascii "FLASHCHIP" then
      { info with flash_chip := upperStr (unwrap v) = ascii "Y" }
    else if vn = ascii "CPWARN" then
      { info with cp_warn := upperStr (unwrap v) = ascii "Y" }
    else if vn = ascii "CALWORD" then
      { info with cal_word := upperStr (unwrap v) = ascii "Y" }
    else if vn = ascii "BANDGAP" then
      { info with band_gap := upperStr (unwrap v) = ascii "Y" }
    else if vn = ascii "ICSPONLY" then
      { info with icsp_only := upperStr (unwrap v) = ascii "Y" }
    else info
  else info

/-! ## k150.cpp : static tables and `configure` -/

/-- One entry of the static core-type table (k150.cpp:35-43). -/
structure CORE_TYPE where
  name : List Nat
  value : Nat
  bits : Nat
  rom_base : Nat
  eeprom_base : Nat
  config_base : Nat
deriving Repr, DecidableEq

/-- `CORE_TYPE_LIST` (k150.cpp:44-58). -/
def CORE_TYPE_LIST : List CORE_TYPE :=
  [⟨ascii "BIT16_C", 0, 16, 0x000000, 0xf00000, 0x300000⟩,
   ⟨ascii "BIT16_A", 1, 16, 0x000000, 0xf00000, 0x300000⟩,
   ⟨ascii "BIT16_B", 2, 16, 0x000000, 0xf00000, 0x300000⟩,
   ⟨ascii "BIT14_G", 3, 14, 0x000000, 0x004200, 0x00400e⟩,
   ⟨ascii "BIT12_A", 4, 12, 0x000000, 0x004200, 0x00400e⟩,
   ⟨ascii "BIT14_A", 5, 14, 0x000000, 0x004200, 0x00400e⟩,
   ⟨ascii "BIT14_B", 6, 14, 0x000000, 0x004200, 0x00400e⟩,
   ⟨ascii "BIT14_C", 7, 14, 0x000000, 0x004200, 0x00400e⟩,
   ⟨ascii "BIT12_B", 8, 14, 0x000000, 0x004200, 0x00400e⟩,
   ⟨ascii "BIT14_E", 9, 14, 0x000000, 0x004200, 0x00400e⟩,
   ⟨ascii "BIT14_F", 10, 14, 0x000000, 0x004200, 0x00400e⟩,
   ⟨ascii "BIT12_C", 11, 12, 0x000000, 0x004200, 0x001ffe⟩]

/-- C++ `int` left shift, in unbounded precision.  For the shifts below
(`0xFFFF << bits`, `(-1) << bits` with `bits ≤ 16`) the low 16 bits of the
unbounded result and of the 32-bit machine result agree, and only those
bits survive the `& 0xFFFF` mask. -/
def intShl (x : Int) (n : Nat) : Int := x * 2 ^ n

/-- C++ `~x` on a two's-complement int: `-x - 1`. -/
def intNot (x : Int) : Int := -x - 1

/-- C++ `x & 0xFFFF` on a two's-complement int: the low 16 bits, i.e.
`x mod 2^16` (Lean's `Int.emod` is non-negative here). -/
def intAnd16 (x : Int) : Int := x % 65536

/-- The `rom_blank` computation of `Programmer::configure` (k150.cpp:286):
`~(0xFFFF << core_bits) & 0xFFFF`. -/
def rom_blank_code (core_bits : Nat) : Int := intAnd16 (intNot (intShl 0xFFFF core_bits))

/-- The spec's formula for `rom_blank`: `~((-1) << core_bits) & 0xFFFF`. -/
def rom_blank_spec (core_bits : Nat) : Int := intAnd16 (intNot (intShl (-1) core_bits))

/-! ## k150.cpp : the protocol state machine

`PState` holds the transport model: the list of reply bytes the device
will deliver (one byte per `readData` call), the log of written messages,
and the `m_VPPEnabled` flag.  `cntOn`/`cntOff` are ghost counters for the
voltage-pairing property: `cntOn` counts the *successful*
`setProgrammingVoltages(true)` calls, `cntOff` counts the
`setProgrammingVoltages(false)` calls. -/

structure PState where
  replies : List Nat
  log : List (List Nat)
  VPPEnabled : Bool
  cntOn : Nat
  cntOff : Nat
deriving Repr, DecidableEq

/-- A fresh session: reply stream `rs`, nothing written yet. -/
def PState.init (rs : List Nat) : PState := ⟨rs, [], false, 0, 0⟩

/-- `m_port->writeData(msg)`: append the message to the log. -/
def writeData (msg : List Nat) (s : PState) : PState :=
  { s with log := s.log ++ [msg] }

/-- The poll loop `m_buffer.clear(); while (m_buffer.size() < n) readData;`:
take the next `n` reply bytes; `none` models the transport throwing (the
C++ `catch` path). -/
def readN (n : Nat) (s : PState) : Option (List Nat × PState) :=
  if n ≤ s.replies.length then
    some (s.replies.take n, { s with replies := s.replies.drop n })
  else none

/-- The polling loop of `commandStart` (k150.cpp:308-317): read bytes one
at a time, discarding everything before the first `'Q'`. -/
def pollQ : List Nat → Option (List Nat)
  | [] => none
  | b :: rest => if b = 81 then some rest else pollQ rest

/-- `Programmer::commandStart` (k150.cpp:301): send `{1}`, poll for `'Q'`,
send `{'P'}`, expect `'P'`. -/
def commandStart (s : PState) : Bool × PState :=
  let s := writeData [1] s
  match pollQ s.replies with
  | none => (false, { s with replies := [] })
  | some rest =>
    let s := writeData [80] { s with replies := rest }
    match readN 1 s with
    | none => (false, s)
    | some (bs, s) => if bs.getD 0 0 ≠ 80 then (false, s) else (true, s)

/-- `Programmer::commandEnd` (k150.cpp:351): send `{1}`, expect `'Q'`. -/
def commandEnd (s : PState) : Bool × PState :=
  let s := writeData [1] s
  match readN 1 s with
  | none => (false, s)
  | some (bs, s) => if bs.getD 0 0 ≠ 81 then (false, s) else (true, s)

/-- `Programmer::setProgrammingVoltages` (k150.cpp:536): send `{4}` /
`{5}`, expect `'V'` / `'v'`, record the new state.  The ghost counters
count the calls with `onoff = false` and the successful calls with
`onoff = true`. -/
def setProgrammingVoltages (onoff : Bool) (s0 : PState) : Bool × PState :=
  let s0 := if onoff then s0 else { s0 with cntOff := s0.cntOff + 1 }
  let s := writeData [if onoff then 4 else 5] s0
  match readN 1 s with
  | none => (false, s)
  | some (bs, s) =>
    if (onoff ∧ bs.getD 0 0 ≠ 86) ∨ (¬onoff ∧ bs.getD 0 0 ≠ 118) then (false, s)
    else
      let s := { s with VPPEnabled := onoff }
      (true, if onoff then { s with cntOn := s.cntOn + 1 } else s)

/-- `Programmer::cycleProgrammingVoltages` (k150.cpp:571): send `{6}`; on
a reply other than `'V'` run `commandEnd`, clear `m_VPPEnabled` and fail. -/
def cycleProgrammingVoltages (s : PState) : Bool × PState :=
  let s := writeData [6] s
  match readN 1 s with
  | none => (false, s)
  | some (bs, s) =>
    if bs.getD 0 0 ≠ 86 then
      let r := commandEnd s
      (false, { r.2 with VPPEnabled := false })
    else (true, { s with VPPEnabled := true })

/-- `Programmer::Properties` (k150.h:62).  `panel_sizing` is assigned in
`configure` (k150.cpp:291) and sent in the initialization message
(k150.cpp:509); the field declaration is missing from the stale shipped
header, so it is restored here. -/
structure Properties where
  socket_hint : List Nat := []
  rom_base : Nat := 0
  rom_size : Nat := 0
  rom_blank : Nat := 0
  eeprom_base : Nat := 0
  eeprom_size : Nat := 0
  core_type : Nat := 0
  core_bits : Nat := 0
  program_delay : Nat := 0
  power_sequence : Nat := 0
  erase_mode : Nat := 0
  program_tries : Nat := 0
  over_program : Nat := 0
  config_base : Nat := 0
  panel_sizing : Nat := 0
  fuse_blank : List Nat := []
  flag_calibration_value_in_rom : Bool := false
  flag_band_gap_fuse : Bool := false
  flag_18f_single_panel_access_mode : Bool := false
  flag_vcc_vpp_delay : Bool := false
  flag_flash_chip : Bool := false
deriving Repr, DecidableEq

/-- The 12-byte message composed by
`Programmer::initializeProgrammingVariables` (k150.cpp:473-509). -/
def initVarsMsg (props : Properties) (icsp_mode : Bool) : List Nat :=
  let flags :=
    (if props.flag_calibration_value_in_rom then 1 else 0) +
    (if props.flag_band_gap_fuse then 2 else 0) +
    (if props.flag_18f_single_panel_access_mode then 4 else 0) +
    (if props.flag_vcc_vpp_delay then 8 else 0)
  let pseq :=
    if ¬icsp_mode then props.power_sequence
    else match props.power_sequence with
      | 2 => 1
      | 4 => 3
      | p => p
  [3, (props.rom_size &&& 0xff00) >>> 8, props.rom_size &&& 0x00ff,
   (props.eeprom_size &&& 0xff00) >>> 8, props.eeprom_size &&& 0x00ff,
   props.core_type, flags, props.program_delay, pseq,
   props.erase_mode, props.program_tries, props.panel_sizing]

/-- `Programmer::initializeProgrammingVariables` (k150.cpp:468): send the
12-byte message, expect `'I'`. -/
def initializeProgrammingVariables (props : Properties) (icsp_mode : Bool)
    (s : PState) : Bool × PState :=
  let s := writeData (initVarsMsg props icsp_mode) s
  match readN 1 s with
  | none => (false, s)
  | some (bs, s) => if bs.getD 0 0 ≠ 73 then (false, s) else (true, s)

/-- `Programmer::waitUntilChipInSocket` (k150.cpp:378): no-op when the
socket hint is empty, else `commandStart`, `{18}`, reply `'A'` then
`'Y'`/other, `commandEnd` (result discarded). -/
def waitUntilChipInSocket (props : Properties) (s : PState) : Bool × PState :=
  if props.socket_hint = [] then (true, s)
  else
    match commandStart s with
    | (false, s) => (false, s)
    | (true, s) =>
      let s := writeData [18] s
      match readN 2 s with
      | none => (false, s)
      | some (bs, s) =>
        if bs.getD 0 0 ≠ 65 then (false, s)
        else
          let ok := bs.getD 1 0 = 89
          let r := commandEnd s
          (ok, r.2)

/-- `Programmer::eraseChip` (k150.cpp:932): send `{14}`, expect `'Y'`. -/
def eraseChip (s : PState) : Bool × PState :=
  let s := writeData [14] s
  match readN 1 s with
  | none => (false, s)
  | some (bs, s) => if bs.getD 0 0 ≠ 89 then (false, s) else (true, s)

/-- The 32-byte chunk loop of `Programmer::programROM` (k150.cpp:639-666):
write each chunk, expect `'Y'` after each. -/
def romChunks : List Nat → PState → Bool × PState
  | [], s => (true, s)
  | data@(_ :: _), s =>
    let s := writeData (data.take 32) s
    match readN 1 s with
    | none => (false, s)
    | some (bs, s) =>
      if bs.getD 0 0 ≠ 89 then (false, s)
      else romChunks (data.drop 32) s
termination_by data => data.length
decreasing_by simp_all; omega

/-- `Programmer::programROM` (k150.cpp:604): size checks, header
`{7, wsz_hi, wsz_lo}` with `'Y'` ack, the 32-byte chunks, terminal `'P'`. -/
def programROM (props : Properties) (data : List Nat) (s : PState) :
    Bool × PState :=
  let wsz := data.length / 2
  if wsz > props.rom_size ∨ (wsz * 2) % 32 ≠ 0 then (false, s)
  else
    let s := writeData [7, (wsz &&& 0xff00) >>> 8, wsz &&& 0x00ff] s
    match readN 1 s with
    | none => (false, s)
    | some (bs, s) =>
      if bs.getD 0 0 ≠ 89 then (false, s)
      else
        match romChunks data s with
        | (false, s) => (false, s)
        | (true, s) =>
          match readN 1 s with
          | none => (false, s)
          | some (bs, s) => if bs.getD 0 0 ≠ 80 then (false, s) else (true, s)

/-- The 2-byte pair loop of `Programmer::programEEPROM` (k150.cpp:
727-754). -/
def eepromPairs : List Nat → PState → Bool × PState
  | b1 :: b2 :: rest, s =>
    let s := writeData [b1, b2] s
    match readN 1 s with
    | none => (false, s)
    | some (bs, s) =>
      if bs.getD 0 0 ≠ 89 then (false, s) else eepromPairs rest s
  | _, s => (true, s)

/-- `Programmer::programEEPROM` (k150.cpp:693): size checks, header
`{8, len_hi, len_lo}` with `'Y'` ack, byte pairs, trailer `{0,0}`,
terminal `'P'`. -/
def programEEPROM (props : Properties) (data : List Nat) (s : PState) :
    Bool × PState :=
  if data.length > props.eeprom_size ∨ data.length % 2 ≠ 0 then (false, s)
  else
    let s := writeData [8, (data.length &&& 0xff00) >>> 8, data.length &&& 0x00ff] s
    match readN 1 s with
    | none => (false, s)
    | some (bs, s) =>
      if bs.getD 0 0 ≠ 89 then (false, s)
      else
        match eepromPairs data s with
        | (false, s) => (false, s)
        | (true, s) =>
          let s := writeData [0, 0] s
          match readN 1 s with
          | none => (false, s)
          | some (bs, s) => if bs.getD 0 0 ≠ 80 then (false, s) else (true, s)

/-- `Programmer::programCONFIG` (k150.cpp:786): branch on `core_bits`. -/
def programCONFIG (props : Properties) (id fuses : List Nat) (s : PState) :
    Bool × PState :=
  let msgO : Option (List Nat) :=
    if props.core_bits = 16 then
      let id_data := id.take 8 ++ List.replicate (8 - id.length) 0
      if fuses.length ≠ 7 then none
      else some ([9, 48, 48] ++ id_data ++
        fuses.flatMap (fun f => [f &&& 0x00ff, (f &&& 0xff00) >>> 8]))
    else
      let id_data := id.take 4 ++ List.replicate (4 - id.length) 0
      if fuses.length = 0 ∨ fuses.length > 2 then none
      else some ([9, 48, 48] ++ id_data ++ [70, 70, 70, 70,
        fuses.getD 0 0 &&& 0x00ff, (fuses.getD 0 0 &&& 0xff00) >>> 8] ++
        List.replicate 12 0xff)
  match msgO with
  | none => (false, s)
  | some msg =>
    let s := writeData msg s
    match readN 1 s with
    | none => (false, s)
    | some (bs, s) => if bs.getD 0 0 ≠ 89 then (false, s) else (true, s)

/-- `Programmer::programCOMMIT_18FXXXX_FUSE` (k150.cpp:860): a no-op
except for 16-bit cores, where `{17}` is sent and `'Y'` expected. -/
def programCOMMIT_18FXXXX_FUSE (props : Properties) (s : PState) :
    Bool × PState :=
  if props.core_bits ≠ 16 then (true, s)
  else
    let s := writeData [17] s
    match readN 1 s with
    | none => (false, s)
    | some (bs, s) => if bs.getD 0 0 ≠ 89 then (false, s) else (true, s)

/-- `Programmer::readROM` (k150.cpp:1086): send `{11}` and read
`2 * rom_size` bytes. -/
def readROM (props : Properties) (s : PState) : Bool × List Nat × PState :=
  let ds := props.rom_size * 2
  let s := writeData [11] s
  match readN ds s with
  | none => (false, [], s)
  | some (bs, s) => (true, bs, s)

/-- `Programmer::readEEPROM` (k150.cpp:1124): send `{12}` and read
`eeprom_size` bytes. -/
def readEEPROM (props : Properties) (s : PState) : Bool × List Nat × PState :=
  let s := writeData [12] s
  match readN props.eeprom_size s with
  | none => (false, [], s)
  | some (bs, s) => (true, bs, s)

/-- The fuse extraction loop of `readCONFIG` (k150.cpp:1076-1080):
`for (i = 0; i < fuse_blank.size(); i += 2)` runs
`(fuse_blank.size() + 1) / 2` times and pushes
`buf[i+10] | (buf[i+11] << 8)`. -/
def readFuses (buf : List Nat) : Nat → Nat → List Nat
  | 0, _ => []
  | n + 1, i =>
    (buf.getD (i + 10) 0 ||| (buf.getD (i + 11) 0) <<< 8) ::
      readFuses buf n (i + 2)

/-- `Programmer::readCONFIG` (k150.cpp:1028): send `{13}`; when the first
reply byte is not `'C'` it calls `setProgrammingVoltages(false)` before
failing; otherwise it reads 26 bytes and extracts the fuse words. -/
def readCONFIG (props : Properties) (s : PState) : Bool × List Nat × PState :=
  let s := writeData [13] s
  match readN 1 s with
  | none => (false, [], s)
  | some (bs, s) =>
    if bs.getD 0 0 ≠ 67 then
      let r := setProgrammingVoltages false s
      (false, [], r.2)
    else
      match readN 26 s with
      | none => (false, [], s)
      | some (buf, s) =>
        (true, readFuses buf ((props.fuse_blank.length + 1) / 2) 0, s)

/-! ## main.cpp : the workflow functions -/

/-- The LSB filter for EEPROM data on 12/14-bit cores (main.cpp:897-898):
`for (i = 0; i < tmp.size(); i += 2) push(tmp[i])`. -/
def lsbOf : List Nat → List Nat
  | a :: _ :: rest => a :: lsbOf rest
  | [a] => [a]
  | [] => []

/-- The EEPROM byte-level data of the PROGRAM/VERIFY workflows
(main.cpp:889-907): `none` models the unsupported-core-bits early
`return false`. -/
def eepromShape (props : Properties) (hex : Segs) : Option (List Nat) :=
  match props.core_bits with
  | 12 | 14 =>
    some (lsbOf (rangeOfData hex props.eeprom_base props.eeprom_size 0xffff false))
  | 16 =>
    some (rangeOfData hex props.eeprom_base (props.eeprom_size / 2) 0xffff false)
  | _ => none

/-- The fuse values of `program_pic` (main.cpp:913-915): the chip's blank
fuses with the first entry replaced by the word extracted at
`config_base`.  (With an empty `fuse_blank` the C++ indexes an empty
vector; the model keeps the empty list.) -/
def fuseShape (props : Properties) (hex : Segs) : List Nat :=
  let fuse_data :=
    rangeOfData hex props.config_base props.fuse_blank.length props.rom_blank true
  match props.fuse_blank with
  | [] => []
  | _ :: t => ((fuse_data.getD 0 0) <<< 8 ||| fuse_data.getD 1 0) :: t

/-- The chip-insertion step shared by the workflows (main.cpp:927-936 and
clones): with `icsp_mode` or an empty socket hint only a message is
printed, otherwise `waitUntilChipInSocket` runs (followed by a 1 s
sleep). -/
def socketStep (props : Properties) (icsp_mode : Bool) (s : PState) :
    Bool × PState :=
  if icsp_mode ∨ props.socket_hint = [] then (true, s)
  else waitUntilChipInSocket props s

/-- The program-and-verify tail of `program_pic` after the voltages are
on (main.cpp:953-1020): program the selected regions (failures only
logged), verify them (failures clear `ok`), optionally commit the 18F
fuse, verify CONFIG, and finally voltages off. -/
def program_pic_tail (props : Properties)
    (rom_data eeprom_data id_data fuse_values : List Nat)
    (program_rom program_eeprom program_config : Bool) (s : PState) :
    Bool × PState :=
  let s := if program_rom then (programROM props rom_data s).2 else s
  let s := if program_eeprom ∧ 0 < props.eeprom_size then
             (programEEPROM props eeprom_data s).2 else s
  let s := if program_config then
             (programCONFIG props id_data fuse_values s).2 else s
  let vr : Bool × PState :=
    if program_rom then
      let r := readROM props s
      (r.1 && (r.2.1 == rom_data), r.2.2)
    else (true, s)
  let ve : Bool × PState :=
    if program_eeprom ∧ 0 < props.eeprom_size then
      let r := readEEPROM props vr.2
      (vr.1 && (r.1 && (r.2.1 == eeprom_data)), r.2.2)
    else vr
  let s := if ve.1 ∧ props.core_bits = 16 ∧ program_config then
             (programCOMMIT_18FXXXX_FUSE props ve.2).2 else ve.2
  let vc : Bool × PState :=
    if ve.1 ∧ program_config then
      match readCONFIG props s with
      | (true, fuses, s) => (fuses == fuse_values, s)
      | (false, _, s) => (false, s)
    else (ve.1, s)
  let f := setProgrammingVoltages false vc.2
  (vc.1 && f.1, f.2)

/-- `program_pic` (main.cpp:872): shape the data, then (in write mode)
initialize, wait for the chip, voltages on, optionally erase + cycle,
then the program-and-verify tail.  In dry-run mode (`program = false`)
the data is only printed. -/
def program_pic (props : Properties) (hex : Segs) (ID : List Nat)
    (icsp_mode program program_rom program_eeprom program_config : Bool)
    (s : PState) : Bool × PState :=
  let rom_data := rangeOfData hex props.rom_base props.rom_size props.rom_blank true
  match eepromShape props hex with
  | none => (false, s)
  | some eeprom_data =>
    let id_data := ID
    let fuse_values := fuseShape props hex
    if program then
      match initializeProgrammingVariables props icsp_mode s with
      | (false, s) => (false, s)
      | (true, s) =>
        match socketStep props icsp_mode s with
        | (false, s) => (false, s)
        | (true, s) =>
          match setProgrammingVoltages true s with
          | (false, s) => (false, s)
          | (true, s) =>
            if props.flag_flash_chip ∧ program_rom ∧ program_eeprom ∧
                program_config then
              match cycleProgrammingVoltages (eraseChip s).2 with
              | (false, s) => (false, s)
              | (true, s) =>
                program_pic_tail props rom_data eeprom_data id_data
                  fuse_values program_rom program_eeprom program_config s
            else
              program_pic_tail props rom_data eeprom_data id_data
                fuse_values program_rom program_eeprom program_config s
    else (true, s)

/-- The ROM-reading stage of `read_pic` (main.cpp:757-768): read the ROM
and (when `-o` was given) insert it into the hex store. -/
def readStageROM (props : Properties) (program_rom outhex_nonempty : Bool)
    (hex : Segs) (s : PState) : Bool × Segs × PState :=
  if program_rom then
    let r := readROM props s
    if outhex_nonempty then
      let l := loadRAW hex props.rom_base r.2.1 true
      (r.1 && l.1, l.2, r.2.2)
    else (r.1, hex, r.2.2)
  else (true, hex, s)

/-- The EEPROM-reading stage of `read_pic` (main.cpp:770-801): read the
EEPROM and (when `-o` was given) insert it, byte- or word-wise depending
on the core width. -/
def readStageEEPROM (props : Properties)
    (program_eeprom outhex_nonempty : Bool) (a : Bool × Segs × PState) :
    Bool × Segs × PState :=
  if program_eeprom then
    let r := readEEPROM props a.2.2
    if outhex_nonempty then
      match props.core_bits with
      | 12 | 14 =>
        let l := loadRAW_LE8 a.2.1 props.eeprom_base r.2.1
        (a.1 && (r.1 && l.1), l.2, r.2.2)
      | 16 =>
        let l := loadRAW a.2.1 props.eeprom_base r.2.1 false
        (a.1 && (r.1 && l.1), l.2, r.2.2)
      | _ => (false, a.2.1, r.2.2)
    else (a.1 && r.1, a.2.1, r.2.2)
  else a

/-- The CONFIG-reading stage of `read_pic` (main.cpp:803-817): read the
fuses and (when everything succeeded and `-o` was given) insert their
big-endian bytes. -/
def readStageCONFIG (props : Properties)
    (program_config outhex_nonempty : Bool) (b : Bool × Segs × PState) :
    Bool × Segs × PState :=
  if program_config then
    match readCONFIG props b.2.2 with
    | (true, fuses, s) =>
      if b.1 ∧ outhex_nonempty then
        let data := fuses.flatMap (fun f => [(f >>> 8) &&& 0xff, f &&& 0xff])
        let l := loadRAW b.2.1 props.config_base data true
        (b.1 && l.1, l.2, s)
      else (b.1, b.2.1, s)
    | (false, _, s) => (false, b.2.1, s)
  else b

/-- The reading tail of `read_pic` after the voltages are on
(main.cpp:757-829): read the selected regions into a fresh hex store
(when `-o` was given) or print them, save, voltages off.  The file
write of `saveHEX` is modelled as succeeding. -/
def read_pic_tail (props : Properties) (program_rom program_eeprom
    program_config outhex_nonempty : Bool) (s : PState) : Bool × PState :=
  let hex : Segs := []
  let a := readStageROM props program_rom outhex_nonempty hex s
  let b := readStageEEPROM props program_eeprom outhex_nonempty a
  let c := readStageCONFIG props program_config outhex_nonempty b
  let save_ok := true
  let ok := c.1 && (!(c.1 ∧ outhex_nonempty) || save_ok)
  let f := setProgrammingVoltages false c.2.2
  (ok && f.1, f.2)

/-- `read_pic` (main.cpp:736): initialize, wait for the chip, voltages
on, then the reading tail. -/
def read_pic (props : Properties) (icsp_mode program_rom program_eeprom
    program_config outhex_nonempty : Bool) (s : PState) : Bool × PState :=
  match initializeProgrammingVariables props icsp_mode s with
  | (false, s) => (false, s)
  | (true, s) =>
    match socketStep props icsp_mode s with
    | (false, s) => (false, s)
    | (true, s) =>
      match setProgrammingVoltages true s with
      | (false, s) => (false, s)
      | (true, s) =>
        read_pic_tail props program_rom program_eeprom program_config
          outhex_nonempty s

/-- `erase_pic` (main.cpp:833): initialize, wait for the chip, voltages
on, erase (failure only logged into `ok`), voltages off. -/
def erase_pic (props : Properties) (icsp_mode : Bool) (s : PState) :
    Bool × PState :=
  match initializeProgrammingVariables props icsp_mode s with
  | (false, s) => (false, s)
  | (true, s) =>
    match socketStep props icsp_mode s with
    | (false, s) => (false, s)
    | (true, s) =>
      match setProgrammingVoltages true s with
      | (false, s) => (false, s)
      | (true, s) =>
        let e := eraseChip s
        let f := setProgrammingVoltages false e.2
        (e.1 && f.1, f.2)

/-- `verify_pic` (main.cpp:1054): like the verification phase of
`program_pic`; note the result of `initializeProgrammingVariables` is
discarded (main.cpp:1091). -/
def verify_pic (props : Properties) (hex : Segs)
    (icsp_mode program_rom program_eeprom : Bool) (s : PState) :
    Bool × PState :=
  let rom_data := rangeOfData hex props.rom_base props.rom_size props.rom_blank true
  match eepromShape props hex with
  | none => (false, s)
  | some eeprom_data =>
    let s := (initializeProgrammingVariables props icsp_mode s).2
    match socketStep props icsp_mode s with
    | (false, s) => (false, s)
    | (true, s) =>
      match setProgrammingVoltages true s with
      | (false, s) => (false, s)
      | (true, s) =>
        let vr : Bool × PState :=
          if program_rom then
            let r := readROM props s
            (r.1 && (r.2.1 == rom_data), r.2.2)
          else (true, s)
        let ve : Bool × PState :=
          if program_eeprom ∧ 0 < props.eeprom_size then
            let r := readEEPROM props vr.2
            (vr.1 && (r.1 && (r.2.1 == eeprom_data)), r.2.2)
          else vr
        let f := setProgrammingVoltages false ve.2
        (ve.1 && f.1, f.2)

/-- `isblank_pic` (main.cpp:1141): reads the regions back and compares
them against synthetic blank data; only the read results feed `ok`, the
comparisons are printed. -/
def isblank_pic (props : Properties)
    (icsp_mode program_rom program_eeprom : Bool) (s : PState) :
    Bool × PState :=
  match initializeProgrammingVariables props icsp_mode s with
  | (false, s) => (false, s)
  | (true, s) =>
    match socketStep props icsp_mode s with
    | (false, s) => (false, s)
    | (true, s) =>
      match setProgrammingVoltages true s with
      | (false, s) => (false, s)
      | (true, s) =>
        let a : Bool × PState :=
          if program_rom then
            let r := readROM props s
            (r.1, r.2.2)
          else (true, s)
        let b : Bool × PState :=
          if program_eeprom ∧ 0 < props.eeprom_size then
            let r := readEEPROM props a.2
            (a.1 && r.1, r.2.2)
          else a
        let f := setProgrammingVoltages false b.2
        (b.1 && f.1, f.2)

/-! ## Derived observations used in the statements -/

/-- The sum of the decoded bytes of a record line, as accumulated by the
`loadHEX` loop before the checksum comparison (meaningful for record
types 0, 2 and 4; type 1 breaks out before the checksum is read). -/
def recSum (l : List Nat) : Nat :=
  recLen l + ((recAddr l >>> 8) &&& 0xff) + (recAddr l &&& 0xff) + recType l +
    (if recType l = 0 then (readWords l ((2 * recLen l + 3) / 4) 0).2
     else if recType l = 2 ∨ recType l = 4 then
       ((hex4At l 9 >>> 8) &&& 0xff) + (hex4At l 9 &&& 0xff)
     else 0)

/-- The validation failures of a `loadHEX` line named by the spec: bad
`':'` prefix (or a too-short line), length mismatch
`line_length ≠ 2*(bb+5)+1`, unsupported record type, or wrong checksum
(on the record types whose checksum is compared). -/
def lineRejected (l : List Nat) : Prop :=
  l.length < 3 ∨ l.getD 0 0 ≠ 58 ∨
    l.length ≠ 2 * (recLen l + 5) + 1 ∨
    (recType l ≠ 0 ∧ recType l ≠ 1 ∧ recType l ≠ 2 ∧ recType l ≠ 4) ∨
    ((recType l = 0 ∨ recType l = 2 ∨ recType l = 4) ∧
      recCrc l ≠ crcOf (recSum l))

/-- A byte address is covered by a stored segment. -/
def coveredBy (segments : Segs) (a : Nat) : Prop :=
  ∃ e ∈ segments, e.1 ≤ a ∧ a < e.1 + e.2.length

/-- `n` blank words, MSB first. -/
def blankWords (bm bl : Nat) : Nat → List Nat
  | 0 => []
  | n + 1 => bm :: bl :: blankWords bm bl n

/-- Word-wise relation between the `swap_bytes = true` and
`swap_bytes = false` outputs of `rangeOfData`: position by position the
two runs emit either the blank word (identically, MSB first) or the same
segment word with/without its two bytes swapped. -/
inductive WordRel (bm bl : Nat) : List Nat → List Nat → Prop
  | nil : WordRel bm bl [] []
  | blank {xs ys : List Nat} : WordRel bm bl xs ys →
      WordRel bm bl (bm :: bl :: xs) (bm :: bl :: ys)
  | swapped {xs ys : List Nat} (b1 b2 : Nat) : WordRel bm bl xs ys →
      WordRel bm bl (b2 :: b1 :: xs) (b1 :: b2 :: ys)

/-! ## Theorems -/

/-- C8: for every entry of the static core-type table (instruction widths
12, 14 and 16), the `rom_blank` value computed by `configure`,
`~(0xFFFF << core_bits) & 0xFFFF`, equals `(1 << bits) - 1` and also
equals the spec formula `~((-1) << core_bits) & 0xFFFF`. -/
theorem coreTable_rom_blank (e : CORE_TYPE) (he : e ∈ CORE_TYPE_LIST) :
    rom_blank_code e.bits = intShl 1 e.bits - 1 ∧
    rom_blank_code e.bits = rom_blank_spec e.bits := by
  fin_cases he <;> exact ⟨by decide, by decide⟩

/-- Witness for C8 at the `BIT14_G` table entry. -/
theorem coreTable_rom_blank_witness :
    rom_blank_code (⟨ascii "BIT14_G", 3, 14, 0, 0x4200, 0x400e⟩ : CORE_TYPE).bits =
      intShl 1 14 - 1 ∧
    rom_blank_code (⟨ascii "BIT14_G", 3, 14, 0, 0x4200, 0x400e⟩ : CORE_TYPE).bits =
      rom_blank_spec 14 :=
  coreTable_rom_blank ⟨ascii "BIT14_G", 3, 14, 0, 0x4200, 0x400e⟩ (by decide)

/-- C7 (code bug): for a quoted chip-database value, `unwrap` keeps the
closing quote: processing the line `CHIPID="0042"` stores the 5-character
string `0042"`, not the 4-character string `0042` the spec describes
(`substr(f + 1, l - f)` takes one character too many). -/
theorem loaddata_quoted_value_keeps_closing_quote :
    (loaddataVar {} (ascii "CHIPID=\"0042\"")).chip_id = ascii "0042\"" ∧
    (loaddataVar {} (ascii "CHIPID=\"0042\"")).chip_id ≠ ascii "0042" ∧
    unwrap (ascii "\"0042\"") = ascii "0042\"" :=
  ⟨by decide, by decide, by decide⟩

/-- C2 (code bug): `loadRAW` accepts an insertion whose byte range
strictly contains an existing segment: after the two *successful*
insertions below the store holds the overlapping segments `[8, 16)` and
`[10, 12)` — address 10 lies in both — refuting both the rejection of
every overlap and the pairwise-non-overlap invariant. -/
theorem loadRAW_containment_not_rejected :
    loadRAW [] 10 [1, 2] false = (true, [(10, [1, 2])]) ∧
    loadRAW [(10, [1, 2])] 8 [5, 6, 7, 8, 9, 10, 11, 12] false =
      (true, [(8, [5, 6, 7, 8, 9, 10, 11, 12]), (10, [1, 2])]) ∧
    (8 ≤ 10 ∧ 10 < 8 + 8) ∧ (10 ≤ 10 ∧ 10 < 10 + 2) :=
  ⟨by decide, by decide, by decide, by decide⟩

/-- C9: a `std::map` insertion with an already-present key leaves the map
unchanged, so when two type-00 records have the same effective address
`loadHEX` keeps the bytes of the first, silently discards the second, and
still succeeds when the file ends with a valid EOF record. -/
theorem loadHEX_duplicate_address_keeps_first :
    (∀ (k : Nat) (v : List Nat) (segs : Segs),
        List.Pairwise (fun a b => a.1 < b.1) segs →
        k ∈ segs.map Prod.fst → mapInsert k v segs = (segs, false)) ∧
    loadHEX [ascii ":02000000AABB99", ascii ":02000000CCDD55",
        ascii ":00000001FF"] = (true, [(0, [0xAA, 0xBB])]) := by
  constructor
  · intro k v segs hs hk
    induction segs with
    | nil => simp at hk
    | cons e t ih =>
      rw [List.pairwise_cons] at hs
      simp only [List.map_cons, List.mem_cons] at hk
      have hne : ¬k < e.1 := by
        rcases hk with hk | hk
        · omega
        · obtain ⟨x, hx, hxk⟩ := List.mem_map.mp hk
          have := hs.1 x hx
          omega
      rcases hk with hk | hk
      · obtain ⟨k', v'⟩ := e
        simp only at hk
        simp [mapInsert, hk]
      · obtain ⟨x, hx, hxk⟩ := List.mem_map.mp hk
        have hgt := hs.1 x hx
        obtain ⟨k', v'⟩ := e
        simp only at hne hgt
        simp only [mapInsert, if_neg hne, if_neg (by omega : ¬k = k')]
        rw [ih hs.2 hk]
  · decide

/-- Witness for C9 at a concrete store. -/
theorem loadHEX_duplicate_address_keeps_first_witness :
    mapInsert 4 [9, 9] [(2, [1, 2]), (4, [3, 4])] = ([(2, [1, 2]), (4, [3, 4])], false) :=
  loadHEX_duplicate_address_keeps_first.1 4 [9, 9] [(2, [1, 2]), (4, [3, 4])]
    (by decide) (by decide)

/-- Unfolding a successful `readN`. -/
lemma readN_some {n : Nat} {s : PState} {bs : List Nat} {s' : PState}
    (h : readN n s = some (bs, s')) :
    s' = { s with replies := s.replies.drop n } ∧ bs = s.replies.take n := by
  unfold readN at h
  split at h
  · simp only [Option.some.injEq, Prod.mk.injEq] at h
    exact ⟨h.2.symm, h.1.symm⟩
  · simp at h

/-- The flag byte written as the spec writes it. -/
lemma flags_sum (a b c d : Bool) :
    (if a then 1 else 0) + (if b then 2 else 0) + (if c then 4 else 0) +
      (if d then 8 else 0) =
    (if a then 1 else 0) * 1 + (if b then 1 else 0) * 2 +
      (if c then 1 else 0) * 4 + (if d then 1 else 0) * 8 := by
  cases a <;> cases b <;> cases c <;> cases d <;> norm_num

/-- The `switch` on the power sequence written as an `if` chain. -/
lemma pseq_match (icsp_mode : Bool) (ps : Nat) :
    (if ¬icsp_mode then ps else match ps with | 2 => 1 | 4 => 3 | p => p) =
    (if icsp_mode then
      if ps = 2 then 1 else if ps = 4 then 3 else ps
    else ps) := by
  cases icsp_mode
  · rfl
  · rcases ps with _ | _ | _ | _ | _ | n <;> rfl

/-- The initialization message in the spec's form. -/
lemma initVarsMsg_spec (props : Properties) (icsp_mode : Bool) :
    initVarsMsg props icsp_mode =
      [3, (props.rom_size &&& 0xff00) >>> 8, props.rom_size &&& 0x00ff,
       (props.eeprom_size &&& 0xff00) >>> 8, props.eeprom_size &&& 0x00ff,
       props.core_type,
       (if props.flag_calibration_value_in_rom then 1 else 0) * 1 +
         (if props.flag_band_gap_fuse then 1 else 0) * 2 +
         (if props.flag_18f_single_panel_access_mode then 1 else 0) * 4 +
         (if props.flag_vcc_vpp_delay then 1 else 0) * 8,
       props.program_delay,
       (if icsp_mode then
         if props.power_sequence = 2 then 1
         else if props.power_sequence = 4 then 3
         else props.power_sequence
       else props.power_sequence),
       props.erase_mode, props.program_tries, props.panel_sizing] := by
  unfold initVarsMsg
  rw [flags_sum, pseq_match]

/-- C6: `initializeProgrammingVariables(icsp_mode)` sends exactly the
12-byte message `{3, rom_size_hi, rom_size_lo, eeprom_size_hi,
eeprom_size_lo, core_type, flags, program_delay,
power_sequence_effective, erase_mode, program_tries, panel_sizing}` with
`flags = cal_in_rom*1 + band_gap*2 + single_panel_access_18f*4 +
vcc_vpp_delay*8` and the power sequence rewritten 2→1, 4→3 under ICSP,
and succeeds iff the reply byte is `'I'`. -/
theorem initializeProgrammingVariables_message (props : Properties)
    (icsp_mode : Bool) (s : PState) (h : s.replies ≠ []) :
    (initVarsMsg props icsp_mode).length = 12 ∧
    (initializeProgrammingVariables props icsp_mode s).2.log =
      s.log ++ [[3, (props.rom_size &&& 0xff00) >>> 8, props.rom_size &&& 0x00ff,
        (props.eeprom_size &&& 0xff00) >>> 8, props.eeprom_size &&& 0x00ff,
        props.core_type,
        (if props.flag_calibration_value_in_rom then 1 else 0) * 1 +
          (if props.flag_band_gap_fuse then 1 else 0) * 2 +
          (if props.flag_18f_single_panel_access_mode then 1 else 0) * 4 +
          (if props.flag_vcc_vpp_delay then 1 else 0) * 8,
        props.program_delay,
        (if icsp_mode then
          if props.power_sequence = 2 then 1
          else if props.power_sequence = 4 then 3
          else props.power_sequence
        else props.power_sequence),
        props.erase_mode, props.program_tries, props.panel_sizing]] ∧
    ((initializeProgrammingVariables props icsp_mode s).1 = true ↔
      s.replies.getD 0 0 = 73) := by
  obtain ⟨a, t, hrep⟩ : ∃ a t, s.replies = a :: t := by
    cases hr : s.replies with
    | nil => exact absurd hr h
    | cons a t => exact ⟨a, t, rfl⟩
  refine ⟨by rw [initVarsMsg_spec]; rfl, ?_, ?_⟩
  · rw [← initVarsMsg_spec]
    unfold initializeProgrammingVariables
    simp only [writeData, readN, hrep]
    simp only [List.length_cons, Nat.le_add_left 1 t.length, if_pos]
    split <;> rfl
  · unfold initializeProgrammingVariables
    simp only [writeData, readN, hrep]
    simp only [List.length_cons, Nat.le_add_left 1 t.length, if_pos]
    by_cases ha : a = 73
    · simp [ha, List.take_succ_cons]
    · simp [ha, List.take_succ_cons]

/-- Witness for C6 at the default properties and reply `'I'`. -/
theorem initializeProgrammingVariables_message_witness :
    (PState.init [73]).replies ≠ [] ∧
    ((initializeProgrammingVariables {} false (PState.init [73])).1 = true ↔
      (PState.init [73]).replies.getD 0 0 = 73) :=
  ⟨by decide,
   (initializeProgrammingVariables_message {} false (PState.init [73])
     (by decide)).2.2⟩

/-- C10: when `readCONFIG` receives a first reply byte other than `'C'`
it sends the voltages-off command (`setProgrammingVoltages(false)`, wire
byte `{5}`) before returning failure — its wire log grows by `{13}` and
`{5}` and the voltages-off counter increments — while every other memory
read/write command returns failure on an unexpected reply having written
only its own command message (no `{5}`), and the plain reads write only
`{11}` / `{12}` whatever the replies. -/
theorem readCONFIG_failure_sends_voltages_off :
    (∀ (props : Properties) (s : PState) (b : Nat) (rest : List Nat),
        s.replies = b :: rest → b ≠ 67 →
        (readCONFIG props s).1 = false ∧
        (readCONFIG props s).2.2.log = s.log ++ [[13], [5]] ∧
        (readCONFIG props s).2.2.cntOff = s.cntOff + 1) ∧
    (∀ (props : Properties) (data : List Nat) (s : PState) (b : Nat)
        (rest : List Nat), s.replies = b :: rest → b ≠ 89 →
        data.length / 2 ≤ props.rom_size → data.length / 2 * 2 % 32 = 0 →
        (programROM props data s).1 = false ∧
        (programROM props data s).2.log = s.log ++
          [[7, (data.length / 2 &&& 0xff00) >>> 8, data.length / 2 &&& 0x00ff]]) ∧
    (∀ (props : Properties) (data : List Nat) (s : PState) (b : Nat)
        (rest : List Nat), s.replies = b :: rest → b ≠ 89 →
        data.length ≤ props.eeprom_size → data.length % 2 = 0 →
        (programEEPROM props data s).1 = false ∧
        (programEEPROM props data s).2.log = s.log ++
          [[8, (data.length &&& 0xff00) >>> 8, data.length &&& 0x00ff]]) ∧
    (∀ (props : Properties) (id fuses : List Nat) (s : PState) (b : Nat)
        (rest : List Nat), s.replies = b :: rest → b ≠ 89 →
        props.core_bits ≠ 16 → fuses.length = 1 →
        (programCONFIG props id fuses s).1 = false ∧
        (programCONFIG props id fuses s).2.log = s.log ++
          [[9, 48, 48] ++ (id.take 4 ++ List.replicate (4 - id.length) 0) ++
            [70, 70, 70, 70, fuses.getD 0 0 &&& 0x00ff,
             (fuses.getD 0 0 &&& 0xff00) >>> 8] ++ List.replicate 12 0xff]) ∧
    (∀ (s : PState) (b : Nat) (rest : List Nat),
        s.replies = b :: rest → b ≠ 89 →
        (eraseChip s).1 = false ∧ (eraseChip s).2.log = s.log ++ [[14]]) ∧
    (∀ (props : Properties) (s : PState) (b : Nat) (rest : List Nat),
        s.replies = b :: rest → b ≠ 89 → props.core_bits = 16 →
        (programCOMMIT_18FXXXX_FUSE props s).1 = false ∧
        (programCOMMIT_18FXXXX_FUSE props s).2.log = s.log ++ [[17]]) ∧
    (∀ (props : Properties) (s : PState),
        (readROM props s).2.2.log = s.log ++ [[11]]) ∧
    (∀ (props : Properties) (s : PState),
        (readEEPROM props s).2.2.log = s.log ++ [[12]]) := by
  refine ⟨?_, ?_, ?_, ?_, ?_, ?_, ?_, ?_⟩
  · intro props s b rest hrep hb
    unfold readCONFIG setProgrammingVoltages
    simp only [writeData, readN, hrep, List.length_cons,
      Nat.le_add_left 1 rest.length, if_pos, List.take_succ_cons, List.take_zero]
    simp only [List.getD_cons_zero, if_neg, hb]
    simp [hb]
    rcases rest with _ | ⟨c, rest⟩
    · simp
    · simp [Nat.le_add_left 1 rest.length]
      split <;> simp
  · intro props data s b rest hrep hb h1 h2
    unfold programROM
    rw [if_neg (by omega)]
    simp only [writeData, readN, hrep, List.length_cons,
      Nat.le_add_left 1 rest.length, if_pos, List.take_succ_cons, List.take_zero]
    simp [hb]
  · intro props data s b rest hrep hb h1 h2
    unfold programEEPROM
    rw [if_neg (by omega)]
    simp only [writeData, readN, hrep, List.length_cons,
      Nat.le_add_left 1 rest.length, if_pos, List.take_succ_cons, List.take_zero]
    simp [hb]
  · intro props id fuses s b rest hrep hb hcb hf
    unfold programCONFIG
    rw [if_neg hcb, if_neg (by omega)]
    simp only [writeData, readN, hrep, List.length_cons,
      Nat.le_add_left 1 rest.length, if_pos, List.take_succ_cons, List.take_zero]
    simp [hb]
  · intro s b rest hrep hb
    unfold eraseChip
    simp only [writeData, readN, hrep, List.length_cons,
      Nat.le_add_left 1 rest.length, if_pos, List.take_succ_cons, List.take_zero]
    simp [hb]
  · intro props s b rest hrep hb hcb
    unfold programCOMMIT_18FXXXX_FUSE
    rw [if_neg (by omega)]
    simp only [writeData, readN, hrep, List.length_cons,
      Nat.le_add_left 1 rest.length, if_pos, List.take_succ_cons, List.take_zero]
    simp [hb]
  · intro props s
    unfold readROM
    dsimp only
    split
    · simp [writeData]
    · rename_i bs s' heq
      obtain ⟨hs', -⟩ := readN_some heq
      subst hs'
      simp [writeData]
  · intro props s
    unfold readEEPROM
    dsimp only
    split
    · simp [writeData]
    · rename_i bs s' heq
      obtain ⟨hs', -⟩ := readN_some heq
      subst hs'
      simp [writeData]

/-- A line with any of the spec's validation failures makes the
`loadHEX` loop body break with a failure. -/
lemma doLine_rejected (l : List Nat) (ext : Nat) (segs : Segs)
    (h : lineRejected l) : ∃ s', doLine l ext segs = .fail s' := by
  unfold doLine
  by_cases h1 : l.length < 3 ∨ l.getD 0 0 ≠ 58
  · rw [if_pos h1]; exact ⟨_, rfl⟩
  push_neg at h1
  rw [if_neg (by push_neg; exact h1)]
  try dsimp only
  by_cases h2 : l.length = 2 * (recLen l + 5) + 1
  case neg => rw [if_pos h2]; exact ⟨_, rfl⟩
  rw [if_neg (not_not_intro h2)]
  try dsimp only
  by_cases t0 : recType l = 0
  · rw [if_pos t0]
    try dsimp only
    rw [if_pos ?_]
    · exact ⟨_, rfl⟩
    rcases h with h | h | h | h | ⟨-, h5⟩
    · omega
    · exact absurd h1.2 h
    · exact absurd h2 h
    · exact absurd t0 h.1
    intro hc
    apply h5
    unfold recSum
    rw [if_pos t0]
    exact hc
  rw [if_neg t0]
  by_cases t1 : recType l = 1
  · exfalso
    rcases h with h | h | h | h | ⟨h5, -⟩
    · omega
    · exact absurd h1.2 h
    · exact absurd h2 h
    · exact absurd t1 h.2.1
    · rcases h5 with h5 | h5 | h5 <;> omega
  rw [if_neg t1]
  by_cases t2 : recType l = 2
  · rw [if_pos t2]
    try dsimp only
    rw [if_pos ?_]
    · exact ⟨_, rfl⟩
    rcases h with h | h | h | h | ⟨-, h5⟩
    · omega
    · exact absurd h1.2 h
    · exact absurd h2 h
    · exact absurd t2 h.2.2.1
    intro hc
    apply h5
    unfold recSum
    rw [if_neg t0, if_pos (Or.inl t2), ← Nat.add_assoc]
    exact hc
  rw [if_neg t2]
  by_cases t4 : recType l = 4
  · rw [if_pos t4]
    try dsimp only
    rw [if_pos ?_]
    · exact ⟨_, rfl⟩
    rcases h with h | h | h | h | ⟨-, h5⟩
    · omega
    · exact absurd h1.2 h
    · exact absurd h2 h
    · exact absurd t4 h.2.2.2
    intro hc
    apply h5
    unfold recSum
    rw [if_neg t0, if_pos (Or.inr t4), ← Nat.add_assoc]
    exact hc
  rw [if_neg t4]
  exact ⟨_, rfl⟩

/-- C1 (amended): a line that fails validation (bad `':'` prefix, length
mismatch, unsupported record type, or wrong checksum) makes `loadHEX`
return failure; for a type-00 data record with a wrong checksum the load
fails but the record's words *do* remain in the previously empty store
(the segment is inserted before the checksum is verified). -/
theorem loadHEX_validation_failure_aborts :
    (∀ (l : List Nat) (ls : List (List Nat)) (ext : Nat) (segs : Segs),
        lineRejected l → (runLines (l :: ls) ext segs).1 = false) ∧
    (loadHEX [ascii ":02000000AABB98", ascii ":00000001FF"]).1 = false ∧
    (loadHEX [ascii ":02000000AABB98", ascii ":00000001FF"]).2 =
      [(0, [0xAA, 0xBB])] := by
  refine ⟨?_, by decide, by decide⟩
  intro l ls ext segs h
  obtain ⟨s', hs'⟩ := doLine_rejected l ext segs h
  unfold runLines
  rw [hs']

/-- Witness for C1's amended theorem: the empty line (which `readline`
returns at end of file) is rejected. -/
theorem loadHEX_validation_failure_aborts_witness :
    lineRejected [] ∧ (runLines [[]] 0 []).1 = false :=
  ⟨Or.inl (by decide),
   loadHEX_validation_failure_aborts.1 [] [] 0 [] (Or.inl (by decide))⟩

/-- C1 counterexample: a bad-checksum type-00 record on a previously
empty store returns failure but leaves a segment in the store, contrary
to the claim that no segment is added. -/
theorem loadHEX_bad_crc_adds_segment :
    (loadHEX [ascii ":02000000AABB98", ascii ":00000001FF"]).1 = false ∧
    (loadHEX [ascii ":02000000AABB98", ascii ":00000001FF"]).2 ≠ [] :=
  ⟨by decide, by decide⟩

/-- Length of a run of blank words. -/
lemma blankWords_length (bm bl n : Nat) : (blankWords bm bl n).length = 2 * n := by
  induction n with
  | zero => rfl
  | succ n ih => simp only [blankWords, List.length_cons, ih]; omega

/-- Bytes of a run of blank words. -/
lemma blankWords_getD (bm bl : Nat) : ∀ (n k : Nat), k < n →
    (blankWords bm bl n).getD (2 * k) 0 = bm ∧
    (blankWords bm bl n).getD (2 * k + 1) 0 = bl := by
  intro n
  induction n with
  | zero => omega
  | succ n ih =>
    intro k hk
    cases k with
    | zero => exact ⟨rfl, rfl⟩
    | succ k =>
      have h1 : (blankWords bm bl (n + 1)).getD (2 * (k + 1)) 0 =
          (blankWords bm bl n).getD (2 * k) 0 := by
        show (bm :: bl :: blankWords bm bl n).getD (2 * k + 1 + 1) 0 = _
        rw [List.getD_cons_succ, List.getD_cons_succ]
      have h2 : (blankWords bm bl (n + 1)).getD (2 * (k + 1) + 1) 0 =
          (blankWords bm bl n).getD (2 * k + 1) 0 := by
        show (bm :: bl :: blankWords bm bl n).getD (2 * k + 2 + 1) 0 = _
        rw [List.getD_cons_succ, List.getD_cons_succ]
      rw [h1, h2]
      exact ih k (by omega)

/-- Characterization of the blank-fill loop. -/
lemma fillLoop_spec (bm bl stop : Nat) : ∀ (addr : Nat), ∃ n : Nat,
    fillLoop bm bl stop addr = (blankWords bm bl n, addr + 2 * n) ∧
    (addr < stop → stop ≤ addr + 2 * n ∧ addr + 2 * n ≤ stop + 1) ∧
    (stop ≤ addr → n = 0) := by
  intro addr
  generalize hm : stop - addr = m
  induction m using Nat.strong_induction_on generalizing addr with
  | _ m ih =>
    rw [fillLoop]
    split
    · rename_i h
      obtain ⟨n, h1, h2, h3⟩ := ih (stop - (addr + 2)) (by omega) (addr + 2) rfl
      refine ⟨n + 1, ?_, by omega, by omega⟩
      rw [h1]
      show (bm :: bl :: blankWords bm bl n, addr + 2 + 2 * n) = _
      rw [Prod.mk.injEq]
      exact ⟨rfl, by omega⟩
    · rename_i h
      exact ⟨0, by rw [Prod.mk.injEq]; exact ⟨rfl, by omega⟩, by omega, fun _ => rfl⟩

/-- The shift loop stops with `addr - shift ≤ first`. -/
lemma shiftCalc_le (first addr : Nat) : ∀ (shift : Nat),
    addr ≤ first + shiftCalc first addr shift := by
  intro shift
  generalize hm : addr - shift = m
  induction m using Nat.strong_induction_on generalizing shift with
  | _ m ih =>
    rw [shiftCalc]
    split
    · rename_i h
      exact ih (addr - (shift + 2)) (by omega) (shift + 2) rfl
    · rename_i h
      omega

/-- Characterization of the segment copy loop. -/
lemma rodCopy_spec (swap_bytes : Bool) (upper : Nat) :
    ∀ (d : List Nat) (addr : Nat), ∃ n : Nat,
    (rodCopy swap_bytes upper d addr).2 = addr + 2 * n ∧
    (rodCopy swap_bytes upper d addr).1.length = 2 * n ∧
    (∀ j, j < n → 2 * j + 1 < d.length) ∧
    (addr ≤ upper → 2 ∣ (upper - addr) → addr + 2 * n ≤ upper) ∧
    (upper ≤ addr + 2 * n ∨ d.length < 2 * n + 2) := by
  intro d addr
  induction d, addr using rodCopy.induct swap_bytes upper with
  | case1 b1 b2 rest addr h ih =>
    obtain ⟨n, e2, e1, hj, hb, hstop⟩ := ih
    refine ⟨n + 1, ?_, ?_, ?_, ?_, ?_⟩
    · simp only [rodCopy, if_pos h]
      rw [e2]; omega
    · simp only [rodCopy, if_pos h, List.length_append, e1]
      cases swap_bytes <;> simp <;> try omega
    · intro j hjn
      cases j with
      | zero => simp only [List.length_cons]; omega
      | succ j => have := hj j (by omega); simp at this ⊢; omega
    · intro hu hpar
      have : addr + 2 ≤ upper := by omega
      have := hb this (by omega)
      omega
    · rcases hstop with hs | hs
      · exact Or.inl (by omega)
      · exact Or.inr (by simp; omega)
  | case2 b1 b2 rest addr h =>
    refine ⟨0, ?_, ?_, by omega, by omega, Or.inl (by omega)⟩
    · simp only [rodCopy, if_neg h]; omega
    · simp only [rodCopy, if_neg h, List.length_nil]
  | case3 t addr h =>
    have hlen : t.length < 2 := by
      match t with
      | [] => simp
      | [a] => simp
      | b1 :: b2 :: rest => exact absurd rfl (h b1 b2 rest)
    have he : rodCopy swap_bytes upper t addr = ([], addr) := by
      match t with
      | [] => rfl
      | [a] => rfl
      | b1 :: b2 :: rest => exact absurd rfl (h b1 b2 rest)
    refine ⟨0, by rw [he]; simp, by rw [he]; rfl, by omega, by omega, Or.inr (by omega)⟩

/-- The main extraction loop emits exactly `upper - addr` bytes. -/
lemma rodLoop_length (bm bl : Nat) (swap_bytes : Bool) (upper : Nat) :
    ∀ (its : Segs) (addr : Nat), addr ≤ upper → 2 ∣ (upper - addr) →
    (rodLoop bm bl swap_bytes upper its addr).length = upper - addr := by
  intro its
  induction its with
  | nil =>
    intro addr h1 h2
    simp only [rodLoop]
    obtain ⟨n, e, hlt2, hge2⟩ := fillLoop_spec bm bl upper addr
    rw [e]
    show (blankWords bm bl n).length = upper - addr
    rw [blankWords_length]
    by_cases hc : addr < upper
    · have := hlt2 hc; omega
    · have := hge2 (by omega); omega
  | cons seg rest ih =>
    obtain ⟨first, bytes⟩ := seg
    intro addr h1 h2
    by_cases hge : first ≥ upper
    · simp only [rodLoop, if_pos hge]
      obtain ⟨n, e, hlt2, hge2⟩ := fillLoop_spec bm bl upper addr
      rw [e]
      show (blankWords bm bl n).length = upper - addr
      rw [blankWords_length]
      by_cases hc : addr < upper
      · have := hlt2 hc; omega
      · have := hge2 (by omega); omega
    · simp only [rodLoop, if_neg hge]
      by_cases hcov : first + bytes.length > addr
      · simp only [if_pos hcov]
        obtain ⟨n1, ef, hf1, hf2⟩ := fillLoop_spec bm bl first addr
        rw [ef]
        dsimp only
        obtain ⟨n2, ec2, ec1, hcj, hcb, hcstop⟩ :=
          rodCopy_spec swap_bytes upper
            (bytes.drop (shiftCalc first (addr + 2 * n1) 0)) (addr + 2 * n1)
        have hfu : first < upper := by omega
        have ha1 : addr + 2 * n1 ≤ upper ∧ 2 ∣ (upper - (addr + 2 * n1)) := by
          by_cases haf : addr < first
          · have := hf1 haf; constructor <;> omega
          · have := hf2 (by omega); constructor <;> omega
        have hc2u : addr + 2 * n1 + 2 * n2 ≤ upper := by
          have := hcb ha1.1 ha1.2; omega
        split
        · rename_i hstopu
          rw [ec2] at hstopu
          rw [List.length_append, blankWords_length, ec1]
          omega
        · rename_i hstopu
          rw [ec2] at hstopu
          rw [List.length_append, List.length_append, blankWords_length, ec1, ec2]
          rw [ih (addr + 2 * n1 + 2 * n2) (by omega) (by omega)]
          omega
      · simp only [if_neg hcov]
        split
        · rename_i hstopu
          simp only [List.length_nil]
          omega
        · rename_i hstopu
          rw [List.nil_append, ih addr h1 h2]

/-- Every word the main loop emits is either the blank word or sits at a
byte address covered by one of the visited segments. -/
lemma rodLoop_blank_or_covered (segs : Segs) (bm bl : Nat) (swap_bytes : Bool)
    (upper : Nat) :
    ∀ (its : Segs) (addr : Nat), (∀ e ∈ its, e ∈ segs) →
    ∀ k : Nat, 2 * k + 1 < (rodLoop bm bl swap_bytes upper its addr).length →
      ((rodLoop bm bl swap_bytes upper its addr).getD (2 * k) 0 = bm ∧
        (rodLoop bm bl swap_bytes upper its addr).getD (2 * k + 1) 0 = bl) ∨
      coveredBy segs (addr + 2 * k) := by
  intro its
  induction its with
  | nil =>
    intro addr hsub k hk
    simp only [rodLoop] at hk ⊢
    obtain ⟨n, e, -, -⟩ := fillLoop_spec bm bl upper addr
    rw [e] at hk ⊢
    dsimp only at hk ⊢
    rw [blankWords_length] at hk
    exact Or.inl (blankWords_getD bm bl n k (by omega))
  | cons seg rest ih =>
    obtain ⟨first, bytes⟩ := seg
    intro addr hsub k hk
    have hmem : (first, bytes) ∈ segs := hsub _ (List.mem_cons_self _ _)
    have hsub' : ∀ e ∈ rest, e ∈ segs := fun e he =>
      hsub e (List.mem_cons_of_mem _ he)
    by_cases hge : first ≥ upper
    · simp only [rodLoop, if_pos hge] at hk ⊢
      obtain ⟨n, e, -, -⟩ := fillLoop_spec bm bl upper addr
      rw [e] at hk ⊢
      dsimp only at hk ⊢
      rw [blankWords_length] at hk
      exact Or.inl (blankWords_getD bm bl n k (by omega))
    · simp only [rodLoop, if_neg hge] at hk ⊢
      by_cases hcov : first + bytes.length > addr
      · simp only [if_pos hcov] at hk ⊢
        obtain ⟨n1, ef, hf1, hf2⟩ := fillLoop_spec bm bl first addr
        rw [ef] at hk ⊢
        dsimp only at hk ⊢
        obtain ⟨n2, ec2, ec1, hcj, -, -⟩ :=
          rodCopy_spec swap_bytes upper
            (bytes.drop (shiftCalc first (addr + 2 * n1) 0)) (addr + 2 * n1)
        have hfla : first ≤ addr + 2 * n1 := by
          by_cases haf : addr < first
          · exact (hf1 haf).1
          · omega
        have hsh := shiftCalc_le first (addr + 2 * n1) 0
        rw [ec2] at hk ⊢
        by_cases hbr : addr + 2 * n1 + 2 * n2 = upper
        · simp only [if_pos hbr] at hk ⊢
          rw [List.length_append, blankWords_length, ec1] at hk
          by_cases hk1 : k < n1
          · left
            rw [List.getD_append _ _ _ _ (by rw [blankWords_length]; omega),
              List.getD_append _ _ _ _ (by rw [blankWords_length]; omega)]
            exact blankWords_getD bm bl n1 k hk1
          · right
            have hkn2 : k - n1 < n2 := by omega
            have hj := hcj (k - n1) hkn2
            rw [List.length_drop] at hj
            refine ⟨(first, bytes), hmem, ?_, ?_⟩
            · show first ≤ addr + 2 * k
              omega
            · show addr + 2 * k < first + bytes.length
              omega
        · simp only [if_neg hbr] at hk ⊢
          rw [List.length_append, List.length_append, blankWords_length, ec1] at hk
          by_cases hk1 : k < n1
          · left
            rw [List.getD_append _ _ _ _
                (by rw [List.length_append, blankWords_length, ec1]; omega),
              List.getD_append _ _ _ _ (by rw [blankWords_length]; omega),
              List.getD_append _ _ _ _
                (by rw [List.length_append, blankWords_length, ec1]; omega),
              List.getD_append _ _ _ _ (by rw [blankWords_length]; omega)]
            exact blankWords_getD bm bl n1 k hk1
          · by_cases hk2 : k < n1 + n2
            · right
              have hkn2 : k - n1 < n2 := by omega
              have hj := hcj (k - n1) hkn2
              rw [List.length_drop] at hj
              refine ⟨(first, bytes), hmem, ?_, ?_⟩
              · show first ≤ addr + 2 * k
                omega
              · show addr + 2 * k < first + bytes.length
                omega
            · have hrec := ih (addr + 2 * n1 + 2 * n2) hsub' (k - n1 - n2)
                (by omega)
              rw [List.getD_append_right _ _ _ _
                  (by rw [List.length_append, blankWords_length, ec1]; omega),
                List.getD_append_right _ _ _ _
                  (by rw [List.length_append, blankWords_length, ec1]; omega),
                List.length_append, blankWords_length, ec1,
                show 2 * k - (2 * n1 + 2 * n2) = 2 * (k - n1 - n2) by omega,
                show 2 * k + 1 - (2 * n1 + 2 * n2) = 2 * (k - n1 - n2) + 1 by omega]
              rcases hrec with hrec | hrec
              · exact Or.inl hrec
              · refine Or.inr ?_
                have : addr + 2 * n1 + 2 * n2 + 2 * (k - n1 - n2) = addr + 2 * k := by
                  omega
                rwa [this] at hrec
      · simp only [if_neg hcov] at hk ⊢
        by_cases hbr : addr = upper
        · simp only [if_pos hbr] at hk
          simp at hk
        · simp only [if_neg hbr] at hk ⊢
          rw [List.nil_append] at hk ⊢
          exact ih addr hsub' k hk

/-- `WordRel` is closed under concatenation. -/
lemma WordRel.append {bm bl : Nat} {xs ys xs' ys' : List Nat}
    (h : WordRel bm bl xs ys) (h' : WordRel bm bl xs' ys') :
    WordRel bm bl (xs ++ xs') (ys ++ ys') := by
  induction h with
  | nil => exact h'
  | blank _ ih => exact WordRel.blank ih
  | swapped b1 b2 _ ih => exact WordRel.swapped b1 b2 ih

/-- A blank run is related to itself. -/
lemma blankWords_rel (bm bl n : Nat) :
    WordRel bm bl (blankWords bm bl n) (blankWords bm bl n) := by
  induction n with
  | zero => exact WordRel.nil
  | succ n ih => exact WordRel.blank ih

/-- The copy loop's final address does not depend on `swap_bytes`. -/
lemma rodCopy_snd_indep (s1 s2 : Bool) (upper : Nat) :
    ∀ (d : List Nat) (addr : Nat),
    (rodCopy s1 upper d addr).2 = (rodCopy s2 upper d addr).2 := by
  intro d addr
  induction d, addr using rodCopy.induct s1 upper with
  | case1 b1 b2 rest addr h ih =>
    simp only [rodCopy, if_pos h]
    exact ih
  | case2 b1 b2 rest addr h =>
    simp only [rodCopy, if_neg h]
  | case3 t addr h =>
    match t with
    | [] => rfl
    | [a] => rfl
    | b1 :: b2 :: rest => exact absurd rfl (h b1 b2 rest)

/-- The copy loop's outputs for the two byte orders are `WordRel`ated. -/
lemma rodCopy_rel (bm bl : Nat) (upper : Nat) :
    ∀ (d : List Nat) (addr : Nat),
    WordRel bm bl (rodCopy true upper d addr).1 (rodCopy false upper d addr).1 := by
  intro d addr
  induction d, addr using rodCopy.induct true upper with
  | case1 b1 b2 rest addr h ih =>
    simp only [rodCopy, if_pos h]
    exact WordRel.swapped b1 b2 ih
  | case2 b1 b2 rest addr h =>
    simp only [rodCopy, if_neg h]
    exact WordRel.nil
  | case3 t addr h =>
    match t with
    | [] => exact WordRel.nil
    | [a] => exact WordRel.nil
    | b1 :: b2 :: rest => exact absurd rfl (h b1 b2 rest)

/-- The whole extraction loop's outputs for the two byte orders are
`WordRel`ated. -/
lemma rodLoop_rel (bm bl : Nat) (upper : Nat) :
    ∀ (its : Segs) (addr : Nat),
    WordRel bm bl (rodLoop bm bl true upper its addr)
      (rodLoop bm bl false upper its addr) := by
  intro its
  induction its with
  | nil =>
    intro addr
    simp only [rodLoop]
    obtain ⟨n, e, -, -⟩ := fillLoop_spec bm bl upper addr
    rw [e]
    exact blankWords_rel bm bl n
  | cons seg rest ih =>
    obtain ⟨first, bytes⟩ := seg
    intro addr
    by_cases hge : first ≥ upper
    · simp only [rodLoop, if_pos hge]
      obtain ⟨n, e, -, -⟩ := fillLoop_spec bm bl upper addr
      rw [e]
      exact blankWords_rel bm bl n
    · simp only [rodLoop, if_neg hge]
      by_cases hcov : first + bytes.length > addr
      · simp only [if_pos hcov]
        obtain ⟨n1, ef, -, -⟩ := fillLoop_spec bm bl first addr
        rw [ef]
        dsimp only
        have hsnd := rodCopy_snd_indep true false upper
          (bytes.drop (shiftCalc first (addr + 2 * n1) 0)) (addr + 2 * n1)
        rw [hsnd]
        have hcrel := rodCopy_rel bm bl upper
          (bytes.drop (shiftCalc first (addr + 2 * n1) 0)) (addr + 2 * n1)
        split
        · exact WordRel.append (blankWords_rel bm bl n1) hcrel
        · exact WordRel.append (WordRel.append (blankWords_rel bm bl n1) hcrel)
            (ih _)
      · simp only [if_neg hcov]
        split
        · exact WordRel.nil
        · rw [List.nil_append, List.nil_append]
          exact ih addr

/-- Word-wise consequence of `WordRel`. -/
lemma WordRel.getD_pairs {bm bl : Nat} {xs ys : List Nat}
    (h : WordRel bm bl xs ys) :
    ∀ k : Nat, 2 * k + 1 < xs.length →
    (xs.getD (2 * k) 0 = ys.getD (2 * k + 1) 0 ∧
      xs.getD (2 * k + 1) 0 = ys.getD (2 * k) 0) ∨
    (xs.getD (2 * k) 0 = bm ∧ xs.getD (2 * k + 1) 0 = bl ∧
      ys.getD (2 * k) 0 = bm ∧ ys.getD (2 * k + 1) 0 = bl) := by
  induction h with
  | nil => intro k hk; simp at hk
  | @blank xs ys hrel ih =>
    intro k hk
    cases k with
    | zero => exact Or.inr ⟨rfl, rfl, rfl, rfl⟩
    | succ k =>
      simp only [List.length_cons] at hk
      have e1 : ∀ (a b : Nat) (l : List Nat),
          (a :: b :: l).getD (2 * (k + 1)) 0 = l.getD (2 * k) 0 := by
        intro a b l
        show (a :: b :: l).getD (2 * k + 1 + 1) 0 = _
        rw [List.getD_cons_succ, List.getD_cons_succ]
      have e2 : ∀ (a b : Nat) (l : List Nat),
          (a :: b :: l).getD (2 * (k + 1) + 1) 0 = l.getD (2 * k + 1) 0 := by
        intro a b l
        show (a :: b :: l).getD (2 * k + 2 + 1) 0 = _
        rw [List.getD_cons_succ, List.getD_cons_succ]
      rw [e1, e1, e2, e2]
      exact ih k (by omega)
  | @swapped xs ys b1 b2 hrel ih =>
    intro k hk
    cases k with
    | zero => exact Or.inl ⟨rfl, rfl⟩
    | succ k =>
      simp only [List.length_cons] at hk
      have e1 : ∀ (a b : Nat) (l : List Nat),
          (a :: b :: l).getD (2 * (k + 1)) 0 = l.getD (2 * k) 0 := by
        intro a b l
        show (a :: b :: l).getD (2 * k + 1 + 1) 0 = _
        rw [List.getD_cons_succ, List.getD_cons_succ]
      have e2 : ∀ (a b : Nat) (l : List Nat),
          (a :: b :: l).getD (2 * (k + 1) + 1) 0 = l.getD (2 * k + 1) 0 := by
        intro a b l
        show (a :: b :: l).getD (2 * k + 2 + 1) 0 = _
        rw [List.getD_cons_succ, List.getD_cons_succ]
      rw [e1, e1, e2, e2]
      exact ih k (by omega)

/-- `rangeOfData` is `rodLoop` over an iterator list drawn from the
store, the same list for either byte order. -/
lemma rangeOfData_eq (segs : Segs) (lower word_count blank_word : Nat) :
    ∃ its : Segs, (∀ e ∈ its, e ∈ segs) ∧
    ∀ s2 : Bool, rangeOfData segs lower word_count blank_word s2 =
      rodLoop ((blank_word >>> 8) &&& 0xff) (blank_word &&& 0xff) s2
        (lower + 2 * word_count) its lower := by
  have hpostsub : ∀ e ∈ segs.dropWhile (fun e => e.1 < lower), e ∈ segs :=
    fun e he => (List.dropWhile_sublist _).subset he
  have hpresub : ∀ e ∈ segs.takeWhile (fun e => e.1 < lower), e ∈ segs :=
    fun e he => (List.takeWhile_sublist _).subset he
  cases hpost : segs.dropWhile (fun e => e.1 < lower) with
  | nil =>
    refine ⟨[], by simp, fun s2 => ?_⟩
    simp only [rangeOfData, hpost]
  | cons hd tl =>
    obtain ⟨f, b⟩ := hd
    cases hpLast : (segs.takeWhile (fun e => e.1 < lower)).getLast? with
    | none =>
      refine ⟨(f, b) :: tl, ?_, fun s2 => ?_⟩
      · rw [← hpost]
        exact hpostsub
      · simp only [rangeOfData, hpost, hpLast]
    | some p =>
      have hpmem : p ∈ segs := by
        apply hpresub
        obtain ⟨hne, hpe⟩ := List.mem_getLast?_eq_getLast
          (Option.mem_def.mpr hpLast)
        rw [hpe]
        exact List.getLast_mem hne
      by_cases hgt : f > lower
      · refine ⟨p :: (f, b) :: tl, ?_, fun s2 => ?_⟩
        · intro e he
          rcases List.mem_cons.mp he with rfl | he
          · exact hpmem
          · rw [← hpost] at he
            exact hpostsub _ he
        · simp only [rangeOfData, hpost, hpLast, if_pos hgt]
      · refine ⟨(f, b) :: tl, ?_, fun s2 => ?_⟩
        · rw [← hpost]
          exact hpostsub
        · simp only [rangeOfData, hpost, hpLast, if_neg hgt]

/-- C3: for every store, even lower bound and word count,
`rangeOfData(lower, word_count, blank_word, swap_bytes)` returns exactly
`2*word_count` bytes covering `[lower, lower + 2*word_count)`; every word
position not covered by a segment yields `blank_word` MSB first; with
`swap_bytes` each extracted segment word is emitted with its two bytes
swapped (word by word, the swapped and unswapped runs are byte-swaps of
each other or both the blank word); and the spec's concrete example
holds. -/
theorem rangeOfData_spec (segs : Segs) (lower word_count blank_word : Nat)
    (swap_bytes : Bool) (hl : 2 ∣ lower) :
    (rangeOfData segs lower word_count blank_word swap_bytes).length =
      2 * word_count ∧
    (∀ k, k < word_count → ¬ coveredBy segs (lower + 2 * k) →
      (rangeOfData segs lower word_count blank_word swap_bytes).getD (2 * k) 0 =
        (blank_word >>> 8) &&& 0xff ∧
      (rangeOfData segs lower word_count blank_word swap_bytes).getD
        (2 * k + 1) 0 = blank_word &&& 0xff) ∧
    (∀ k, k < word_count →
      ((rangeOfData segs lower word_count blank_word true).getD (2 * k) 0 =
          (rangeOfData segs lower word_count blank_word false).getD
            (2 * k + 1) 0 ∧
        (rangeOfData segs lower word_count blank_word true).getD (2 * k + 1) 0 =
          (rangeOfData segs lower word_count blank_word false).getD (2 * k) 0) ∨
      ((rangeOfData segs lower word_count blank_word true).getD (2 * k) 0 =
          (blank_word >>> 8) &&& 0xff ∧
        (rangeOfData segs lower word_count blank_word true).getD (2 * k + 1) 0 =
          blank_word &&& 0xff ∧
        (rangeOfData segs lower word_count blank_word false).getD (2 * k) 0 =
          (blank_word >>> 8) &&& 0xff ∧
        (rangeOfData segs lower word_count blank_word false).getD
          (2 * k + 1) 0 = blank_word &&& 0xff)) ∧
    rangeOfData [(0x100, [0xAA, 0xBB])] 0x0FE 3 0xFFFF false =
      [0xFF, 0xFF, 0xAA, 0xBB, 0xFF, 0xFF] := by
  obtain ⟨its, hsub, heq⟩ := rangeOfData_eq segs lower word_count blank_word
  have hlen : ∀ s2 : Bool,
      (rangeOfData segs lower word_count blank_word s2).length =
        2 * word_count := by
    intro s2
    rw [heq s2, rodLoop_length _ _ _ _ its lower (by omega)
      ⟨word_count, by omega⟩]
    omega
  refine ⟨hlen swap_bytes, ?_, ?_, ?_⟩
  · intro k hk hcov
    have hb := rodLoop_blank_or_covered segs ((blank_word >>> 8) &&& 0xff)
      (blank_word &&& 0xff) swap_bytes (lower + 2 * word_count) its lower hsub k
      (by rw [← heq swap_bytes, hlen swap_bytes]; omega)
    rw [heq swap_bytes]
    rcases hb with hb | hb
    · exact hb
    · exact absurd hb hcov
  · intro k hk
    have hrel := rodLoop_rel ((blank_word >>> 8) &&& 0xff)
      (blank_word &&& 0xff) (lower + 2 * word_count) its lower
    have hp := WordRel.getD_pairs hrel k
      (by rw [← heq true, hlen true]; omega)
    rw [heq true, heq false]
    exact hp
  · simp [rangeOfData, rodLoop, fillLoop, rodCopy, shiftCalc]
    decide

/-- Witness for C3 at the spec's concrete example. -/
theorem rangeOfData_spec_witness :
    (2 : Nat) ∣ 0x0FE ∧
    rangeOfData [(0x100, [0xAA, 0xBB])] 0x0FE 3 0xFFFF false =
      [0xFF, 0xFF, 0xAA, 0xBB, 0xFF, 0xFF] :=
  ⟨by decide,
   (rangeOfData_spec [(0x100, [0xAA, 0xBB])] 0x0FE 3 0xFFFF false
     (by decide)).2.2.2⟩

/-- `commandStart` never touches the voltage counters. -/
lemma cnt_commandStart (s : PState) :
    (commandStart s).2.cntOn = s.cntOn ∧ (commandStart s).2.cntOff = s.cntOff := by
  unfold commandStart writeData readN
  dsimp only
  repeat' split <;> (try simp_all) <;> (try casesm* _ ∧ _) <;>
    (try subst_vars) <;> (try simp_all)

/-- `commandEnd` never touches the voltage counters. -/
lemma cnt_commandEnd (s : PState) :
    (commandEnd s).2.cntOn = s.cntOn ∧ (commandEnd s).2.cntOff = s.cntOff := by
  unfold commandEnd writeData readN
  dsimp only
  repeat' split <;> (try simp_all) <;> (try casesm* _ ∧ _) <;>
    (try subst_vars) <;> (try simp_all)

/-- `initializeProgrammingVariables` never touches the voltage counters. -/
lemma cnt_initializeProgrammingVariables (props : Properties)
    (icsp_mode : Bool) (s : PState) :
    (initializeProgrammingVariables props icsp_mode s).2.cntOn = s.cntOn ∧
    (initializeProgrammingVariables props icsp_mode s).2.cntOff = s.cntOff := by
  unfold initializeProgrammingVariables writeData readN
  dsimp only
  repeat' split <;> (try simp_all) <;> (try casesm* _ ∧ _) <;>
    (try subst_vars) <;> (try simp_all)

/-- `eraseChip` never touches the voltage counters. -/
lemma cnt_eraseChip (s : PState) :
    (eraseChip s).2.cntOn = s.cntOn ∧ (eraseChip s).2.cntOff = s.cntOff := by
  unfold eraseChip writeData readN
  dsimp only
  repeat' split <;> (try simp_all) <;> (try casesm* _ ∧ _) <;>
    (try subst_vars) <;> (try simp_all)

/-- `cycleProgrammingVoltages` sends `{6}` (and possibly `commandEnd`),
not a voltages-off command: the counters are unchanged. -/
lemma cnt_cycleProgrammingVoltages (s : PState) :
    (cycleProgrammingVoltages s).2.cntOn = s.cntOn ∧
    (cycleProgrammingVoltages s).2.cntOff = s.cntOff := by
  unfold cycleProgrammingVoltages commandEnd writeData readN
  dsimp only
  repeat' split <;> (try simp_all) <;> (try casesm* _ ∧ _) <;>
    (try subst_vars) <;> (try simp_all)

/-- `waitUntilChipInSocket` never touches the voltage counters. -/
lemma cnt_waitUntilChipInSocket (props : Properties) (s : PState) :
    (waitUntilChipInSocket props s).2.cntOn = s.cntOn ∧
    (waitUntilChipInSocket props s).2.cntOff = s.cntOff := by
  unfold waitUntilChipInSocket
  split
  · exact ⟨rfl, rfl⟩
  · split
    · rename_i s1 heq
      have c := cnt_commandStart s
      rw [heq] at c
      exact c
    · rename_i s1 heq
      have c := cnt_commandStart s
      rw [heq] at c
      dsimp only at c
      dsimp only
      split
      · simp_all [writeData]
      · rename_i bs s2 heq2
        obtain ⟨hs2, -⟩ := readN_some heq2
        subst hs2
        split
        · simp_all [writeData]
        · constructor
          · rw [(cnt_commandEnd _).1]
            simp [writeData, c.1]
          · rw [(cnt_commandEnd _).2]
            simp [writeData, c.2]

/-- A `setProgrammingVoltages(true)` call increments `cntOn` exactly when
it succeeds and never touches `cntOff`. -/
lemma cnt_setPV_true (s : PState) :
    (setProgrammingVoltages true s).2.cntOff = s.cntOff ∧
    (setProgrammingVoltages true s).2.cntOn =
      s.cntOn + (if (setProgrammingVoltages true s).1 then 1 else 0) := by
  unfold setProgrammingVoltages writeData readN
  dsimp only
  repeat' split <;> (try simp_all) <;> (try casesm* _ ∧ _) <;>
    (try subst_vars) <;> (try simp_all)

/-- A `setProgrammingVoltages(false)` call increments `cntOff` and never
touches `cntOn`. -/
lemma cnt_setPV_false (s : PState) :
    (setProgrammingVoltages false s).2.cntOn = s.cntOn ∧
    (setProgrammingVoltages false s).2.cntOff = s.cntOff + 1 := by
  unfold setProgrammingVoltages writeData readN
  dsimp only
  repeat' split <;> (try simp_all) <;> (try casesm* _ ∧ _) <;>
    (try subst_vars) <;> (try simp_all)

/-- The ROM chunk loop never touches the voltage counters. -/
lemma cnt_romChunks : ∀ (d : List Nat) (s : PState),
    (romChunks d s).2.cntOn = s.cntOn ∧ (romChunks d s).2.cntOff = s.cntOff := by
  intro d s
  induction d, s using romChunks.induct with
  | case1 s => constructor <;> simp [romChunks]
  | case2 head tail s s1 heq =>
    simp only [romChunks]
    try dsimp only
    rw [heq]
    simp [writeData]
  | case3 head tail s s1 bs s2 heq hb =>
    simp only [romChunks]
    try dsimp only
    rw [heq]
    try dsimp only
    rw [if_pos hb]
    obtain ⟨hs2, -⟩ := readN_some heq
    subst hs2
    exact ⟨rfl, rfl⟩
  | case4 head tail s s1 bs s2 heq hb ih =>
    simp only [romChunks]
    try dsimp only
    rw [heq]
    try dsimp only
    rw [if_neg hb]
    obtain ⟨hs2, -⟩ := readN_some heq
    subst hs2
    constructor
    · rw [ih.1]; exact rfl
    · rw [ih.2]; exact rfl

/-- The EEPROM pair loop never touches the voltage counters. -/
lemma cnt_eepromPairs : ∀ (d : List Nat) (s : PState),
    (eepromPairs d s).2.cntOn = s.cntOn ∧ (eepromPairs d s).2.cntOff = s.cntOff := by
  intro d s
  induction d, s using eepromPairs.induct with
  | case1 b1 b2 rest s s1 heq =>
    simp only [eepromPairs]
    try dsimp only
    rw [heq]
    simp [writeData]
  | case2 b1 b2 rest s s1 bs s2 heq hb =>
    simp only [eepromPairs]
    try dsimp only
    rw [heq]
    try dsimp only
    rw [if_pos hb]
    obtain ⟨hs2, -⟩ := readN_some heq
    subst hs2
    exact ⟨rfl, rfl⟩
  | case3 b1 b2 rest s s1 bs s2 heq hb ih =>
    simp only [eepromPairs]
    try dsimp only
    rw [heq]
    try dsimp only
    rw [if_neg hb]
    obtain ⟨hs2, -⟩ := readN_some heq
    subst hs2
    constructor
    · rw [ih.1]; exact rfl
    · rw [ih.2]; exact rfl
  | case4 t s hne =>
    match t, hne with
    | [], _ => exact ⟨rfl, rfl⟩
    | [a], _ => exact ⟨rfl, rfl⟩
    | b1 :: b2 :: rest, hne => exact absurd rfl (hne b1 b2 rest)

/-- Equation form of `cnt_initializeProgrammingVariables`. -/
lemma cnt_initializeProgrammingVariables' {props : Properties}
    {icsp_mode : Bool} {s : PState} {b : Bool} {s' : PState}
    (h : initializeProgrammingVariables props icsp_mode s = (b, s')) :
    s'.cntOn = s.cntOn ∧ s'.cntOff = s.cntOff := by
  have c := cnt_initializeProgrammingVariables props icsp_mode s
  rw [h] at c
  exact c

/-- Equation form of `cnt_cycleProgrammingVoltages`. -/
lemma cnt_cycleProgrammingVoltages' {s : PState} {b : Bool} {s' : PState}
    (h : cycleProgrammingVoltages s = (b, s')) :
    s'.cntOn = s.cntOn ∧ s'.cntOff = s.cntOff := by
  have c := cnt_cycleProgrammingVoltages s
  rw [h] at c
  exact c

/-- Equation form of `cnt_eraseChip`. -/
lemma cnt_eraseChip' {s : PState} {b : Bool} {s' : PState}
    (h : eraseChip s = (b, s')) :
    s'.cntOn = s.cntOn ∧ s'.cntOff = s.cntOff := by
  have c := cnt_eraseChip s
  rw [h] at c
  exact c

/-- Equation form of `cnt_setPV_true`. -/
lemma cnt_setPV_true' {s : PState} {b : Bool} {s' : PState}
    (h : setProgrammingVoltages true s = (b, s')) :
    s'.cntOff = s.cntOff ∧ s'.cntOn = s.cntOn + (if b then 1 else 0) := by
  have c := cnt_setPV_true s
  rw [h] at c
  exact c

/-- Equation form of `cnt_setPV_false`. -/
lemma cnt_setPV_false' {s : PState} {b : Bool} {s' : PState}
    (h : setProgrammingVoltages false s = (b, s')) :
    s'.cntOn = s.cntOn ∧ s'.cntOff = s.cntOff + 1 := by
  have c := cnt_setPV_false s
  rw [h] at c
  exact c

/-- Equation form of `cnt_romChunks`. -/
lemma cnt_romChunks' {d : List Nat} {s : PState} {b : Bool} {s' : PState}
    (h : romChunks d s = (b, s')) :
    s'.cntOn = s.cntOn ∧ s'.cntOff = s.cntOff := by
  have c := cnt_romChunks d s
  rw [h] at c
  exact c

/-- Equation form of `cnt_eepromPairs`. -/
lemma cnt_eepromPairs' {d : List Nat} {s : PState} {b : Bool} {s' : PState}
    (h : eepromPairs d s = (b, s')) :
    s'.cntOn = s.cntOn ∧ s'.cntOff = s.cntOff := by
  have c := cnt_eepromPairs d s
  rw [h] at c
  exact c

/-- The chip-insertion step never touches the voltage counters. -/
lemma cnt_socketStep' {props : Properties} {icsp_mode : Bool} {s : PState}
    {b : Bool} {s' : PState} (h : socketStep props icsp_mode s = (b, s')) :
    s'.cntOn = s.cntOn ∧ s'.cntOff = s.cntOff := by
  unfold socketStep at h
  split at h
  · cases h; exact ⟨rfl, rfl⟩
  · have c := cnt_waitUntilChipInSocket props s
    rw [h] at c
    exact c

/-- `programROM` never touches the voltage counters. -/
lemma cnt_programROM' {props : Properties} {data : List Nat} {s : PState}
    {b : Bool} {s' : PState} (h : programROM props data s = (b, s')) :
    s'.cntOn = s.cntOn ∧ s'.cntOff = s.cntOff := by
  unfold programROM at h
  dsimp only at h
  split at h
  · cases h; exact ⟨rfl, rfl⟩
  · split at h
    · cases h; exact ⟨rfl, rfl⟩
    · rename_i bs s1 heq
      obtain ⟨hs1, -⟩ := readN_some heq
      subst hs1
      split at h
      · cases h; exact ⟨rfl, rfl⟩
      · split at h
        · rename_i s2 heq2
          obtain ⟨c1, c2⟩ := cnt_romChunks' heq2
          cases h
          exact ⟨c1, c2⟩
        · rename_i s2 heq2
          obtain ⟨c1, c2⟩ := cnt_romChunks' heq2
          split at h
          · cases h; exact ⟨c1, c2⟩
          · rename_i bs2 s3 heq3
            obtain ⟨hs3, -⟩ := readN_some heq3
            subst hs3
            split at h <;> cases h <;> exact ⟨c1, c2⟩

/-- `programEEPROM` never touches the voltage counters. -/
lemma cnt_programEEPROM' {props : Properties} {data : List Nat} {s : PState}
    {b : Bool} {s' : PState} (h : programEEPROM props data s = (b, s')) :
    s'.cntOn = s.cntOn ∧ s'.cntOff = s.cntOff := by
  unfold programEEPROM at h
  dsimp only at h
  split at h
  · cases h; exact ⟨rfl, rfl⟩
  · split at h
    · cases h; exact ⟨rfl, rfl⟩
    · rename_i bs s1 heq
      obtain ⟨hs1, -⟩ := readN_some heq
      subst hs1
      split at h
      · cases h; exact ⟨rfl, rfl⟩
      · split at h
        · rename_i s2 heq2
          obtain ⟨c1, c2⟩ := cnt_eepromPairs' heq2
          cases h
          exact ⟨c1, c2⟩
        · rename_i s2 heq2
          obtain ⟨c1, c2⟩ := cnt_eepromPairs' heq2
          split at h
          · cases h; exact ⟨c1, c2⟩
          · rename_i bs2 s3 heq3
            obtain ⟨hs3, -⟩ := readN_some heq3
            subst hs3
            split at h <;> cases h <;> exact ⟨c1, c2⟩

/-- `programCONFIG` never touches the voltage counters. -/
lemma cnt_programCONFIG' {props : Properties} {id fuses : List Nat}
    {s : PState} {b : Bool} {s' : PState}
    (h : programCONFIG props id fuses s = (b, s')) :
    s'.cntOn = s.cntOn ∧ s'.cntOff = s.cntOff := by
  unfold programCONFIG at h
  dsimp only at h
  split at h
  · cases h; exact ⟨rfl, rfl⟩
  · split at h
    · cases h; exact ⟨rfl, rfl⟩
    · rename_i bs s1 heq
      obtain ⟨hs1, -⟩ := readN_some heq
      subst hs1
      split at h <;> cases h <;> exact ⟨rfl, rfl⟩

/-- `programCOMMIT_18FXXXX_FUSE` never touches the voltage counters. -/
lemma cnt_programCOMMIT' {props : Properties} {s : PState} {b : Bool}
    {s' : PState} (h : programCOMMIT_18FXXXX_FUSE props s = (b, s')) :
    s'.cntOn = s.cntOn ∧ s'.cntOff = s.cntOff := by
  unfold programCOMMIT_18FXXXX_FUSE at h
  dsimp only at h
  split at h
  · cases h; exact ⟨rfl, rfl⟩
  · split at h
    · cases h; exact ⟨rfl, rfl⟩
    · rename_i bs s1 heq
      obtain ⟨hs1, -⟩ := readN_some heq
      subst hs1
      split at h <;> cases h <;> exact ⟨rfl, rfl⟩

/-- `readROM` never touches the voltage counters. -/
lemma cnt_readROM' {props : Properties} {s : PState} {b : Bool}
    {bs : List Nat} {s' : PState} (h : readROM props s = (b, bs, s')) :
    s'.cntOn = s.cntOn ∧ s'.cntOff = s.cntOff := by
  unfold readROM at h
  dsimp only at h
  split at h
  · cases h; exact ⟨rfl, rfl⟩
  · rename_i bs2 s1 heq
    obtain ⟨hs1, -⟩ := readN_some heq
    subst hs1
    cases h
    exact ⟨rfl, rfl⟩

/-- `readEEPROM` never touches the voltage counters. -/
lemma cnt_readEEPROM' {props : Properties} {s : PState} {b : Bool}
    {bs : List Nat} {s' : PState} (h : readEEPROM props s = (b, bs, s')) :
    s'.cntOn = s.cntOn ∧ s'.cntOff = s.cntOff := by
  unfold readEEPROM at h
  dsimp only at h
  split at h
  · cases h; exact ⟨rfl, rfl⟩
  · rename_i bs2 s1 heq
    obtain ⟨hs1, -⟩ := readN_some heq
    subst hs1
    cases h
    exact ⟨rfl, rfl⟩

/-- `readCONFIG` leaves `cntOn` alone and either leaves `cntOff` alone or
(on its internal voltages-off call) increments it while failing. -/
lemma cnt_readCONFIG' {props : Properties} {s : PState} {b : Bool}
    {fuses : List Nat} {s' : PState} (h : readCONFIG props s = (b, fuses, s')) :
    s'.cntOn = s.cntOn ∧
    (s'.cntOff = s.cntOff ∨ (s'.cntOff = s.cntOff + 1 ∧ b = false)) := by
  unfold readCONFIG at h
  dsimp only at h
  split at h
  · cases h; exact ⟨rfl, Or.inl rfl⟩
  · rename_i bs s1 heq
    obtain ⟨hs1, -⟩ := readN_some heq
    subst hs1
    split at h
    · cases h
      constructor
      · rw [(cnt_setPV_false _).1]
        exact rfl
      · refine Or.inr ⟨?_, rfl⟩
        rw [(cnt_setPV_false _).2]
        exact rfl
    · split at h
      · cases h; exact ⟨rfl, Or.inl rfl⟩
      · rename_i buf s2 heq2
        obtain ⟨hs2, -⟩ := readN_some heq2
        subst hs2
        cases h
        exact ⟨rfl, Or.inl rfl⟩


/-- Projection form: `initializeProgrammingVariables` keeps `cntOn`. -/
lemma cnt_init_on (props : Properties) (icsp_mode : Bool) (s : PState) :
    (initializeProgrammingVariables props icsp_mode s).2.cntOn = s.cntOn :=
  (cnt_initializeProgrammingVariables props icsp_mode s).1

/-- Projection form: `initializeProgrammingVariables` keeps `cntOff`. -/
lemma cnt_init_off (props : Properties) (icsp_mode : Bool) (s : PState) :
    (initializeProgrammingVariables props icsp_mode s).2.cntOff = s.cntOff :=
  (cnt_initializeProgrammingVariables props icsp_mode s).2

/-- Projection form: `eraseChip` keeps `cntOn`. -/
lemma cnt_eraseChip_on (s : PState) : (eraseChip s).2.cntOn = s.cntOn :=
  (cnt_eraseChip s).1

/-- Projection form: `eraseChip` keeps `cntOff`. -/
lemma cnt_eraseChip_off (s : PState) : (eraseChip s).2.cntOff = s.cntOff :=
  (cnt_eraseChip s).2

/-- Projection form: `programROM` keeps `cntOn`. -/
lemma cnt_programROM_on (props : Properties) (data : List Nat) (s : PState) :
    (programROM props data s).2.cntOn = s.cntOn := (cnt_programROM' rfl).1

/-- Projection form: `programROM` keeps `cntOff`. -/
lemma cnt_programROM_off (props : Properties) (data : List Nat) (s : PState) :
    (programROM props data s).2.cntOff = s.cntOff := (cnt_programROM' rfl).2

/-- Projection form: `programEEPROM` keeps `cntOn`. -/
lemma cnt_programEEPROM_on (props : Properties) (data : List Nat) (s : PState) :
    (programEEPROM props data s).2.cntOn = s.cntOn := (cnt_programEEPROM' rfl).1

/-- Projection form: `programEEPROM` keeps `cntOff`. -/
lemma cnt_programEEPROM_off (props : Properties) (data : List Nat) (s : PState) :
    (programEEPROM props data s).2.cntOff = s.cntOff := (cnt_programEEPROM' rfl).2

/-- Projection form: `programCONFIG` keeps `cntOn`. -/
lemma cnt_programCONFIG_on (props : Properties) (id fuses : List Nat)
    (s : PState) : (programCONFIG props id fuses s).2.cntOn = s.cntOn :=
  (cnt_programCONFIG' rfl).1

/-- Projection form: `programCONFIG` keeps `cntOff`. -/
lemma cnt_programCONFIG_off (props : Properties) (id fuses : List Nat)
    (s : PState) : (programCONFIG props id fuses s).2.cntOff = s.cntOff :=
  (cnt_programCONFIG' rfl).2

/-- Projection form: `programCOMMIT_18FXXXX_FUSE` keeps `cntOn`. -/
lemma cnt_programCOMMIT_on (props : Properties) (s : PState) :
    (programCOMMIT_18FXXXX_FUSE props s).2.cntOn = s.cntOn :=
  (cnt_programCOMMIT' rfl).1

/-- Projection form: `programCOMMIT_18FXXXX_FUSE` keeps `cntOff`. -/
lemma cnt_programCOMMIT_off (props : Properties) (s : PState) :
    (programCOMMIT_18FXXXX_FUSE props s).2.cntOff = s.cntOff :=
  (cnt_programCOMMIT' rfl).2

/-- Projection form: `readROM` keeps `cntOn`. -/
lemma cnt_readROM_on (props : Properties) (s : PState) :
    (readROM props s).2.2.cntOn = s.cntOn := (cnt_readROM' rfl).1

/-- Projection form: `readROM` keeps `cntOff`. -/
lemma cnt_readROM_off (props : Properties) (s : PState) :
    (readROM props s).2.2.cntOff = s.cntOff := (cnt_readROM' rfl).2

/-- Projection form: `readEEPROM` keeps `cntOn`. -/
lemma cnt_readEEPROM_on (props : Properties) (s : PState) :
    (readEEPROM props s).2.2.cntOn = s.cntOn := (cnt_readEEPROM' rfl).1

/-- Projection form: `readEEPROM` keeps `cntOff`. -/
lemma cnt_readEEPROM_off (props : Properties) (s : PState) :
    (readEEPROM props s).2.2.cntOff = s.cntOff := (cnt_readEEPROM' rfl).2

/-- Projection form: `readCONFIG` keeps `cntOn`. -/
lemma cnt_readCONFIG_on (props : Properties) (s : PState) :
    (readCONFIG props s).2.2.cntOn = s.cntOn := (cnt_readCONFIG' rfl).1

/-- Projection form: a `setProgrammingVoltages(false)` call keeps `cntOn`. -/
lemma cnt_setPV_false_on (s : PState) :
    (setProgrammingVoltages false s).2.cntOn = s.cntOn := (cnt_setPV_false s).1

/-- Projection form: a `setProgrammingVoltages(false)` call bumps `cntOff`. -/
lemma cnt_setPV_false_off (s : PState) :
    (setProgrammingVoltages false s).2.cntOff = s.cntOff + 1 :=
  (cnt_setPV_false s).2

/-- A successful `readCONFIG` leaves both counters alone. -/
lemma cnt_readCONFIG_true {props : Properties} {s : PState}
    {fuses : List Nat} {s' : PState}
    (h : readCONFIG props s = (true, fuses, s')) :
    s'.cntOn = s.cntOn ∧ s'.cntOff = s.cntOff := by
  obtain ⟨c1, c2⟩ := cnt_readCONFIG' h
  rcases c2 with c2 | ⟨-, hF⟩
  · exact ⟨c1, c2⟩
  · exact absurd hF (by simp)

/-- A failing `readCONFIG` leaves `cntOff` alone or bumps it once. -/
lemma cnt_readCONFIG_false {props : Properties} {s : PState}
    {fuses : List Nat} {s' : PState}
    (h : readCONFIG props s = (false, fuses, s')) :
    s'.cntOn = s.cntOn ∧ (s'.cntOff = s.cntOff ∨ s'.cntOff = s.cntOff + 1) := by
  obtain ⟨c1, c2⟩ := cnt_readCONFIG' h
  exact ⟨c1, c2.imp id And.left⟩

/-- The tail of `program_pic` sends exactly one voltages-off command,
plus one more (while failing) when `readCONFIG` fails internally. -/
lemma cnt_program_pic_tail' {props : Properties}
    {rom_data eeprom_data id_data fuse_values : List Nat} {pr pe pc : Bool}
    {s : PState} {b : Bool} {s' : PState}
    (h : program_pic_tail props rom_data eeprom_data id_data fuse_values
           pr pe pc s = (b, s')) :
    s'.cntOn = s.cntOn ∧
    (s'.cntOff = s.cntOff + 1 ∨ (s'.cntOff = s.cntOff + 2 ∧ b = false)) := by
  unfold program_pic_tail at h
  dsimp only at h
  repeat' split at h
  all_goals cases h
  all_goals first
    | (constructor
       · simp only [cnt_setPV_false_on, cnt_programROM_on,
           cnt_programEEPROM_on, cnt_programCONFIG_on, cnt_programCOMMIT_on,
           cnt_readROM_on, cnt_readEEPROM_on]
       · left
         simp only [cnt_setPV_false_off, cnt_programROM_off,
           cnt_programEEPROM_off, cnt_programCONFIG_off, cnt_programCOMMIT_off,
           cnt_readROM_off, cnt_readEEPROM_off])
    | (obtain ⟨r1, r2⟩ := cnt_readCONFIG_true (by assumption)
       simp only [apply_ite PState.cntOn, apply_ite PState.cntOff,
         cnt_programROM_on, cnt_programEEPROM_on, cnt_programCONFIG_on,
         cnt_programCOMMIT_on, cnt_readROM_on, cnt_readEEPROM_on,
         cnt_programROM_off, cnt_programEEPROM_off, cnt_programCONFIG_off,
         cnt_programCOMMIT_off, cnt_readROM_off, cnt_readEEPROM_off,
         ite_self] at r1 r2
       constructor
       · simp only [cnt_setPV_false_on, r1]
       · left
         simp only [cnt_setPV_false_off, r2])
    | (obtain ⟨r1, r2⟩ := cnt_readCONFIG_false (by assumption)
       simp only [apply_ite PState.cntOn, apply_ite PState.cntOff,
         cnt_programROM_on, cnt_programEEPROM_on, cnt_programCONFIG_on,
         cnt_programCOMMIT_on, cnt_readROM_on, cnt_readEEPROM_on,
         cnt_programROM_off, cnt_programEEPROM_off, cnt_programCONFIG_off,
         cnt_programCOMMIT_off, cnt_readROM_off, cnt_readEEPROM_off,
         ite_self] at r1 r2
       constructor
       · simp only [cnt_setPV_false_on, r1]
       · rcases r2 with r2 | r2
         · left
           simp only [cnt_setPV_false_off, r2]
         · right
           constructor
           · rw [cnt_setPV_false_off, r2]
           · simp)

/-- The ROM-reading stage never touches the voltage counters. -/
lemma cnt_readStageROM' {props : Properties} {pr oh : Bool} {hex : Segs}
    {s : PState} {b2 : Bool} {g : Segs} {s' : PState}
    (h : readStageROM props pr oh hex s = (b2, g, s')) :
    s'.cntOn = s.cntOn ∧ s'.cntOff = s.cntOff := by
  unfold readStageROM at h
  dsimp only at h
  repeat' split at h
  all_goals cases h
  all_goals constructor <;>
    simp only [cnt_readROM_on, cnt_readROM_off]

/-- Projection form: the ROM-reading stage keeps `cntOn`. -/
lemma cnt_readStageROM_on (props : Properties) (pr oh : Bool) (hex : Segs)
    (s : PState) : (readStageROM props pr oh hex s).2.2.cntOn = s.cntOn :=
  (cnt_readStageROM' rfl).1

/-- Projection form: the ROM-reading stage keeps `cntOff`. -/
lemma cnt_readStageROM_off (props : Properties) (pr oh : Bool) (hex : Segs)
    (s : PState) : (readStageROM props pr oh hex s).2.2.cntOff = s.cntOff :=
  (cnt_readStageROM' rfl).2

/-- The EEPROM-reading stage never touches the voltage counters. -/
lemma cnt_readStageEEPROM' {props : Properties} {pe oh : Bool}
    {a : Bool × Segs × PState} {b2 : Bool} {g : Segs} {s' : PState}
    (h : readStageEEPROM props pe oh a = (b2, g, s')) :
    s'.cntOn = a.2.2.cntOn ∧ s'.cntOff = a.2.2.cntOff := by
  unfold readStageEEPROM at h
  dsimp only at h
  repeat' split at h
  all_goals cases h
  all_goals constructor <;>
    simp only [cnt_readEEPROM_on, cnt_readEEPROM_off]

/-- Projection form: the EEPROM-reading stage keeps `cntOn`. -/
lemma cnt_readStageEEPROM_on (props : Properties) (pe oh : Bool)
    (a : Bool × Segs × PState) :
    (readStageEEPROM props pe oh a).2.2.cntOn = a.2.2.cntOn :=
  (cnt_readStageEEPROM' rfl).1

/-- Projection form: the EEPROM-reading stage keeps `cntOff`. -/
lemma cnt_readStageEEPROM_off (props : Properties) (pe oh : Bool)
    (a : Bool × Segs × PState) :
    (readStageEEPROM props pe oh a).2.2.cntOff = a.2.2.cntOff :=
  (cnt_readStageEEPROM' rfl).2

/-- The CONFIG-reading stage keeps `cntOn` and either keeps `cntOff` or
(via the internal voltages-off of a failing `readCONFIG`) bumps it while
failing. -/
lemma cnt_readStageCONFIG' {props : Properties} {pc oh : Bool}
    {B : Bool × Segs × PState} {b2 : Bool} {g : Segs} {s' : PState}
    (h : readStageCONFIG props pc oh B = (b2, g, s')) :
    s'.cntOn = B.2.2.cntOn ∧
    (s'.cntOff = B.2.2.cntOff ∨
     (s'.cntOff = B.2.2.cntOff + 1 ∧ b2 = false)) := by
  unfold readStageCONFIG at h
  split at h
  · split at h
    · rename_i fuses rs heq
      obtain ⟨r1, r2⟩ := cnt_readCONFIG_true heq
      try dsimp only at h
      split at h
      · cases h
        exact ⟨r1, Or.inl r2⟩
      · cases h
        exact ⟨r1, Or.inl r2⟩
    · rename_i x rs heq
      obtain ⟨r1, r2⟩ := cnt_readCONFIG_false heq
      cases h
      refine ⟨r1, ?_⟩
      rcases r2 with r2 | r2
      · exact Or.inl r2
      · exact Or.inr ⟨r2, rfl⟩
  · cases h
    exact ⟨rfl, Or.inl rfl⟩

/-- Projection form: the CONFIG-reading stage keeps `cntOn`. -/
lemma cnt_readStageCONFIG_on (props : Properties) (pc oh : Bool)
    (B : Bool × Segs × PState) :
    (readStageCONFIG props pc oh B).2.2.cntOn = B.2.2.cntOn :=
  (cnt_readStageCONFIG' rfl).1

/-- Dichotomy form: the CONFIG-reading stage keeps `cntOff` or bumps it
while failing. -/
lemma cnt_readStageCONFIG_off (props : Properties) (pc oh : Bool)
    (B : Bool × Segs × PState) :
    (readStageCONFIG props pc oh B).2.2.cntOff = B.2.2.cntOff ∨
    ((readStageCONFIG props pc oh B).2.2.cntOff = B.2.2.cntOff + 1 ∧
     (readStageCONFIG props pc oh B).1 = false) :=
  (cnt_readStageCONFIG' rfl).2

/-- The tail of `read_pic` sends exactly one voltages-off command, plus
one more (while failing) when `readCONFIG` fails internally. -/
lemma cnt_read_pic_tail' {props : Properties} {pr pe pc oh : Bool}
    {s : PState} {b : Bool} {s' : PState}
    (h : read_pic_tail props pr pe pc oh s = (b, s')) :
    s'.cntOn = s.cntOn ∧
    (s'.cntOff = s.cntOff + 1 ∨ (s'.cntOff = s.cntOff + 2 ∧ b = false)) := by
  unfold read_pic_tail at h
  dsimp only at h
  cases h
  constructor
  · simp only [cnt_setPV_false_on, cnt_readStageCONFIG_on,
      cnt_readStageEEPROM_on, cnt_readStageROM_on]
  · rcases cnt_readStageCONFIG_off props pc oh
        (readStageEEPROM props pe oh (readStageROM props pr oh [] s)) with
      r | ⟨r, rb⟩
    · left
      simp only [cnt_setPV_false_off, r, cnt_readStageEEPROM_off,
        cnt_readStageROM_off]
    · right
      constructor
      · rw [cnt_setPV_false_off, r, cnt_readStageEEPROM_off,
          cnt_readStageROM_off]
      · simp [rb]

/-- On every exit path of `erase_pic` the voltage counters balance. -/
lemma cnt_erase_pic' {props : Properties} {icsp : Bool} {s : PState}
    {b : Bool} {s' : PState} (h : erase_pic props icsp s = (b, s')) :
    s'.cntOn + s.cntOff = s'.cntOff + s.cntOn := by
  unfold erase_pic at h
  split at h
  · rename_i s1 heq1
    obtain ⟨i1, i2⟩ := cnt_initializeProgrammingVariables' heq1
    cases h
    omega
  · rename_i s1 heq1
    obtain ⟨i1, i2⟩ := cnt_initializeProgrammingVariables' heq1
    split at h
    · rename_i s2 heq2
      obtain ⟨w1, w2⟩ := cnt_socketStep' heq2
      cases h
      omega
    · rename_i s2 heq2
      obtain ⟨w1, w2⟩ := cnt_socketStep' heq2
      split at h
      · rename_i s3 heq3
        obtain ⟨p1, p2⟩ := cnt_setPV_true' heq3
        simp at p2
        cases h
        omega
      · rename_i s3 heq3
        obtain ⟨p1, p2⟩ := cnt_setPV_true' heq3
        simp at p2
        dsimp only at h
        cases h
        simp only [cnt_setPV_false_on, cnt_setPV_false_off, cnt_eraseChip_on,
          cnt_eraseChip_off]
        omega

/-- On every exit path of `verify_pic` the voltage counters balance. -/
lemma cnt_verify_pic' {props : Properties} {hex : Segs} {icsp pr pe : Bool}
    {s : PState} {b : Bool} {s' : PState}
    (h : verify_pic props hex icsp pr pe s = (b, s')) :
    s'.cntOn + s.cntOff = s'.cntOff + s.cntOn := by
  unfold verify_pic at h
  try dsimp only at h
  split at h
  · cases h
    omega
  · rename_i ee heq0
    split at h
    · rename_i s2 heq2
      obtain ⟨w1, w2⟩ := cnt_socketStep' heq2
      simp only [cnt_init_on, cnt_init_off] at w1 w2
      cases h
      omega
    · rename_i s2 heq2
      obtain ⟨w1, w2⟩ := cnt_socketStep' heq2
      simp only [cnt_init_on, cnt_init_off] at w1 w2
      split at h
      · rename_i s3 heq3
        obtain ⟨p1, p2⟩ := cnt_setPV_true' heq3
        simp at p2
        cases h
        omega
      · rename_i s3 heq3
        obtain ⟨p1, p2⟩ := cnt_setPV_true' heq3
        simp at p2
        try dsimp only at h
        repeat' split at h
        all_goals cases h
        all_goals simp only [cnt_setPV_false_on, cnt_setPV_false_off,
          cnt_readROM_on, cnt_readEEPROM_on, cnt_readROM_off,
          cnt_readEEPROM_off]
        all_goals omega

/-- On every exit path of `isblank_pic` the voltage counters balance. -/
lemma cnt_isblank_pic' {props : Properties} {icsp pr pe : Bool}
    {s : PState} {b : Bool} {s' : PState}
    (h : isblank_pic props icsp pr pe s = (b, s')) :
    s'.cntOn + s.cntOff = s'.cntOff + s.cntOn := by
  unfold isblank_pic at h
  split at h
  · rename_i s1 heq1
    obtain ⟨i1, i2⟩ := cnt_initializeProgrammingVariables' heq1
    cases h
    omega
  · rename_i s1 heq1
    obtain ⟨i1, i2⟩ := cnt_initializeProgrammingVariables' heq1
    split at h
    · rename_i s2 heq2
      obtain ⟨w1, w2⟩ := cnt_socketStep' heq2
      cases h
      omega
    · rename_i s2 heq2
      obtain ⟨w1, w2⟩ := cnt_socketStep' heq2
      split at h
      · rename_i s3 heq3
        obtain ⟨p1, p2⟩ := cnt_setPV_true' heq3
        simp at p2
        cases h
        omega
      · rename_i s3 heq3
        obtain ⟨p1, p2⟩ := cnt_setPV_true' heq3
        simp at p2
        try dsimp only at h
        repeat' split at h
        all_goals cases h
        all_goals simp only [cnt_setPV_false_on, cnt_setPV_false_off,
          cnt_readROM_on, cnt_readEEPROM_on, cnt_readROM_off,
          cnt_readEEPROM_off]
        all_goals omega

/-- On every exit path of `program_pic` the voltage counters balance,
except that the function returns `false` with the counters off by one
when `cycleProgrammingVoltages` fails (voltages left on) or when the
CONFIG verification's `readCONFIG` fails internally (voltages turned
off twice). -/
lemma cnt_program_pic' {props : Properties} {hex : Segs} {ID : List Nat}
    {icsp pgm pr pe pc : Bool} {s : PState} {b : Bool} {s' : PState}
    (h : program_pic props hex ID icsp pgm pr pe pc s = (b, s')) :
    s'.cntOn + s.cntOff = s'.cntOff + s.cntOn ∨
    (b = false ∧ (s'.cntOn + s.cntOff = s'.cntOff + s.cntOn + 1 ∨
                  s'.cntOff + s.cntOn = s'.cntOn + s.cntOff + 1)) := by
  unfold program_pic at h
  dsimp only at h
  split at h
  · cases h
    left
    omega
  · rename_i ee heq0
    split at h
    case isFalse =>
      cases h
      left
      omega
    rename_i hpgm
    split at h
    · rename_i s1 heq1
      obtain ⟨i1, i2⟩ := cnt_initializeProgrammingVariables' heq1
      cases h
      left
      omega
    · rename_i s1 heq1
      obtain ⟨i1, i2⟩ := cnt_initializeProgrammingVariables' heq1
      split at h
      · rename_i s2 heq2
        obtain ⟨w1, w2⟩ := cnt_socketStep' heq2
        cases h
        left
        omega
      · rename_i s2 heq2
        obtain ⟨w1, w2⟩ := cnt_socketStep' heq2
        split at h
        · rename_i s3 heq3
          obtain ⟨p1, p2⟩ := cnt_setPV_true' heq3
          simp at p2
          cases h
          left
          omega
        · rename_i s3 heq3
          obtain ⟨p1, p2⟩ := cnt_setPV_true' heq3
          simp at p2
          split at h
          · split at h
            · rename_i s4 heqc
              obtain ⟨y1, y2⟩ := cnt_cycleProgrammingVoltages' heqc
              simp only [cnt_eraseChip_on, cnt_eraseChip_off] at y1 y2
              cases h
              right
              refine ⟨rfl, Or.inl ?_⟩
              omega
            · rename_i s4 heqc
              obtain ⟨y1, y2⟩ := cnt_cycleProgrammingVoltages' heqc
              simp only [cnt_eraseChip_on, cnt_eraseChip_off] at y1 y2
              obtain ⟨t1, t2⟩ := cnt_program_pic_tail' h
              rcases t2 with t2 | ⟨t2, hb⟩
              · left
                omega
              · right
                exact ⟨hb, Or.inr (by omega)⟩
          · obtain ⟨t1, t2⟩ := cnt_program_pic_tail' h
            rcases t2 with t2 | ⟨t2, hb⟩
            · left
              omega
            · right
              exact ⟨hb, Or.inr (by omega)⟩

/-- On every exit path of `read_pic` the voltage counters balance,
except that the function returns `false` with one extra voltages-off
when `readCONFIG` fails internally. -/
lemma cnt_read_pic' {props : Properties} {icsp pr pe pc oh : Bool}
    {s : PState} {b : Bool} {s' : PState}
    (h : read_pic props icsp pr pe pc oh s = (b, s')) :
    s'.cntOn + s.cntOff = s'.cntOff + s.cntOn ∨
    (b = false ∧ s'.cntOff + s.cntOn = s'.cntOn + s.cntOff + 1) := by
  unfold read_pic at h
  split at h
  · rename_i s1 heq1
    obtain ⟨i1, i2⟩ := cnt_initializeProgrammingVariables' heq1
    cases h
    left
    omega
  · rename_i s1 heq1
    obtain ⟨i1, i2⟩ := cnt_initializeProgrammingVariables' heq1
    split at h
    · rename_i s2 heq2
      obtain ⟨w1, w2⟩ := cnt_socketStep' heq2
      cases h
      left
      omega
    · rename_i s2 heq2
      obtain ⟨w1, w2⟩ := cnt_socketStep' heq2
      split at h
      · rename_i s3 heq3
        obtain ⟨p1, p2⟩ := cnt_setPV_true' heq3
        simp at p2
        cases h
        left
        omega
      · rename_i s3 heq3
        obtain ⟨p1, p2⟩ := cnt_setPV_true' heq3
        simp at p2
        obtain ⟨t1, t2⟩ := cnt_read_pic_tail' h
        rcases t2 with t2 | ⟨t2, hb⟩
        · left
          omega
        · right
          exact ⟨hb, by omega⟩

set_option maxHeartbeats 2000000 in
/-- Counterexample to C4 as stated: when `cycleProgrammingVoltages`
fails, `program_pic` returns `false` after one successful
`setProgrammingVoltages(true)` and zero `setProgrammingVoltages(false)`
calls: the early `return false` at main.cpp:949-950 skips the final
voltages-off at main.cpp:1020. -/
theorem program_pic_cycle_failure_leaves_voltages_on :
    (program_pic { core_bits := 14, flag_flash_chip := true } [] [] false true
        true true true (PState.init [73, 86, 89, 99, 81])).1 = false ∧
    (program_pic { core_bits := 14, flag_flash_chip := true } [] [] false true
        true true true (PState.init [73, 86, 89, 99, 81])).2.cntOn = 1 ∧
    (program_pic { core_bits := 14, flag_flash_chip := true } [] [] false true
        true true true (PState.init [73, 86, 89, 99, 81])).2.cntOff = 0 ∧
    (program_pic { core_bits := 14, flag_flash_chip := true } [] [] false true
        true true true (PState.init [73, 86, 89, 99, 81])).2.log =
      [[3, 0, 0, 0, 0, 0, 0, 0, 0, 0, 0, 0], [4], [14], [6], [1]] := by
  simp [program_pic, eepromShape, fuseShape, rangeOfData, rodLoop, rodCopy,
    fillLoop, shiftCalc, lsbOf, initializeProgrammingVariables, initVarsMsg,
    pollQ, socketStep, setProgrammingVoltages, cycleProgrammingVoltages,
    eraseChip, commandStart, commandEnd, waitUntilChipInSocket, writeData,
    readN, PState.init]
  try decide

/-- C4 (corrected): started in a fresh transport state, the count of
successful `setProgrammingVoltages(true)` calls equals the count of
`setProgrammingVoltages(false)` calls on every exit path of
`erase_pic`, `verify_pic` and `isblank_pic`; `program_pic` and
`read_pic` balance on all exit paths too, except that they return
`false` with the counts off by one when `cycleProgrammingVoltages`
fails (early return with the voltages still on) or when a
`readCONFIG` fails internally (its own voltages-off at k150.cpp:1050
plus the final one). -/
theorem voltage_pairing_by_workflow
    (props : Properties) (hex : Segs) (ID : List Nat)
    (icsp pgm pr pe pc oh : Bool) (rs : List Nat) :
    ((erase_pic props icsp (PState.init rs)).2.cntOn =
      (erase_pic props icsp (PState.init rs)).2.cntOff) ∧
    ((verify_pic props hex icsp pr pe (PState.init rs)).2.cntOn =
      (verify_pic props hex icsp pr pe (PState.init rs)).2.cntOff) ∧
    ((isblank_pic props icsp pr pe (PState.init rs)).2.cntOn =
      (isblank_pic props icsp pr pe (PState.init rs)).2.cntOff) ∧
    ((program_pic props hex ID icsp pgm pr pe pc (PState.init rs)).2.cntOn =
      (program_pic props hex ID icsp pgm pr pe pc (PState.init rs)).2.cntOff ∨
     ((program_pic props hex ID icsp pgm pr pe pc (PState.init rs)).1 = false ∧
      ((program_pic props hex ID icsp pgm pr pe pc (PState.init rs)).2.cntOn =
        (program_pic props hex ID icsp pgm pr pe pc (PState.init rs)).2.cntOff + 1 ∨
       (program_pic props hex ID icsp pgm pr pe pc (PState.init rs)).2.cntOff =
        (program_pic props hex ID icsp pgm pr pe pc (PState.init rs)).2.cntOn + 1))) ∧
    ((read_pic props icsp pr pe pc oh (PState.init rs)).2.cntOn =
      (read_pic props icsp pr pe pc oh (PState.init rs)).2.cntOff ∨
     ((read_pic props icsp pr pe pc oh (PState.init rs)).1 = false ∧
      (read_pic props icsp pr pe pc oh (PState.init rs)).2.cntOff =
       (read_pic props icsp pr pe pc oh (PState.init rs)).2.cntOn + 1)) := by
  have h0on : (PState.init rs).cntOn = 0 := rfl
  have h0off : (PState.init rs).cntOff = 0 := rfl
  refine ⟨?_, ?_, ?_, ?_, ?_⟩
  · have e := cnt_erase_pic' (show erase_pic props icsp (PState.init rs) =
      ((erase_pic props icsp (PState.init rs)).1,
       (erase_pic props icsp (PState.init rs)).2) from rfl)
    omega
  · have e := cnt_verify_pic'
      (show verify_pic props hex icsp pr pe (PState.init rs) =
        ((verify_pic props hex icsp pr pe (PState.init rs)).1,
         (verify_pic props hex icsp pr pe (PState.init rs)).2) from rfl)
    omega
  · have e := cnt_isblank_pic'
      (show isblank_pic props icsp pr pe (PState.init rs) =
        ((isblank_pic props icsp pr pe (PState.init rs)).1,
         (isblank_pic props icsp pr pe (PState.init rs)).2) from rfl)
    omega
  · have e := cnt_program_pic'
      (show program_pic props hex ID icsp pgm pr pe pc (PState.init rs) =
        ((program_pic props hex ID icsp pgm pr pe pc (PState.init rs)).1,
         (program_pic props hex ID icsp pgm pr pe pc (PState.init rs)).2) from
        rfl)
    rcases e with e | ⟨e1, e2⟩
    · left
      omega
    · rcases e2 with e2 | e2
      · exact Or.inr ⟨e1, Or.inl (by omega)⟩
      · exact Or.inr ⟨e1, Or.inr (by omega)⟩
  · have e := cnt_read_pic'
      (show read_pic props icsp pr pe pc oh (PState.init rs) =
        ((read_pic props icsp pr pe pc oh (PState.init rs)).1,
         (read_pic props icsp pr pe pc oh (PState.init rs)).2) from rfl)
    rcases e with e | ⟨e1, e2⟩
    · left
      omega
    · exact Or.inr ⟨e1, by omega⟩

set_option maxHeartbeats 4000000 in
/-- C5: with `flash_chip = true` and ROM, EEPROM and CONFIG all selected
for programming, a successful `program_pic` run emits exactly the
command sequence `{3,…}` (init), `{4}` (voltages on), `{14}` (erase),
`{6}` (cycle voltages), `{7,…}` (program ROM, with its 32-byte data
chunk), `{8,…}` (program EEPROM, with its data pairs), `{9,…}`
(program ID and fuses), `{11}` `{12}` `{13}` (the three readbacks),
and finally `{5}` (voltages off). -/
theorem flash_program_command_order :
    (program_pic
      { socket_hint := [], rom_base := 0, rom_size := 16, rom_blank := 0x3FFF,
        eeprom_base := 0x4200, eeprom_size := 2, core_type := 3,
        core_bits := 14, program_delay := 1, power_sequence := 0,
        erase_mode := 1, program_tries := 1, over_program := 1,
        config_base := 0x400e, panel_sizing := 1, fuse_blank := [0x3FFF],
        flag_flash_chip := true }
      [] [] false true true true true
      (PState.init
        ([73, 86, 89, 86, 89, 89, 80, 89, 89, 80, 89] ++
          rangeOfData [] 0 16 0x3FFF true ++ [255, 255] ++ [67] ++
          (List.replicate 10 0 ++ [255, 63] ++ List.replicate 14 0) ++
          [118]))).1 = true ∧
    (program_pic
      { socket_hint := [], rom_base := 0, rom_size := 16, rom_blank := 0x3FFF,
        eeprom_base := 0x4200, eeprom_size := 2, core_type := 3,
        core_bits := 14, program_delay := 1, power_sequence := 0,
        erase_mode := 1, program_tries := 1, over_program := 1,
        config_base := 0x400e, panel_sizing := 1, fuse_blank := [0x3FFF],
        flag_flash_chip := true }
      [] [] false true true true true
      (PState.init
        ([73, 86, 89, 86, 89, 89, 80, 89, 89, 80, 89] ++
          rangeOfData [] 0 16 0x3FFF true ++ [255, 255] ++ [67] ++
          (List.replicate 10 0 ++ [255, 63] ++ List.replicate 14 0) ++
          [118]))).2.log =
      [[3, 0, 16, 0, 2, 3, 0, 1, 0, 1, 1, 1],
       [4],
       [14],
       [6],
       [7, 0, 16],
       [63, 255, 63, 255, 63, 255, 63, 255, 63, 255, 63, 255, 63, 255, 63,
        255, 63, 255, 63, 255, 63, 255, 63, 255, 63, 255, 63, 255, 63, 255,
        63, 255],
       [8, 0, 2],
       [255, 255],
       [0, 0],
       [9, 48, 48, 0, 0, 0, 0, 70, 70, 70, 70, 255, 63, 255, 255, 255, 255,
        255, 255, 255, 255, 255, 255, 255, 255],
       [11],
       [12],
       [13],
       [5]] := by
  simp [program_pic, program_pic_tail, eepromShape, fuseShape, rangeOfData,
    rodLoop, rodCopy, fillLoop, shiftCalc, lsbOf, initializeProgrammingVariables,
    initVarsMsg, pollQ, socketStep, setProgrammingVoltages,
    cycleProgrammingVoltages, eraseChip, commandStart, commandEnd,
    waitUntilChipInSocket, writeData, readN, PState.init, programROM, romChunks,
    programEEPROM, eepromPairs, programCONFIG, programCOMMIT_18FXXXX_FUSE,
    readROM, readEEPROM, readCONFIG, readFuses]
  try decide

/-- Witness for C10: `readCONFIG` with first reply `'A'`. -/
theorem readCONFIG_failure_sends_voltages_off_witness :
    (readCONFIG {} (PState.init [65])).1 = false ∧
    (readCONFIG {} (PState.init [65])).2.2.log = (PState.init [65]).log ++ [[13], [5]] ∧
    (readCONFIG {} (PState.init [65])).2.2.cntOff = (PState.init [65]).cntOff + 1 :=
  readCONFIG_failure_sends_voltages_off.1 {} (PState.init [65]) 65 [] rfl
    (by decide)

end K150
